import Mathlib

/-!
Verification development for the pycitysim Map engine
(`pycitysim/map/map.py`).

The Python source computes with IEEE floats, shapely geometries and
pyproj projections.  The shallow embedding idealises this as follows:

* floats become exact rationals (`ℚ`);
* Euclidean distances appear throughout only via comparisons with a
  radius and as sort keys, both invariant under squaring on
  nonnegatives, so the embedding computes **squared** distances
  (`ptDistSq`, `geomDistSq`, …) and compares them with the squared
  radius;
* shapely `LineString`s carry their vertex list; for the route
  operations, which use arc lengths (`substring`, `project`,
  `geo.length`), the embedding stores the per-segment lengths as data
  in `PLine.lens` (shapely derives them with square roots, which do
  not exist in ℚ; concrete instances below use axis-aligned segments
  whose lengths are exact);
* `pyproj.Proj(...)(..., inverse=True)` and
  `shapely.ops.unary_union(...).centroid` are external libraries and
  enter as function parameters (`projInv`, `unionCentroid`) of the
  loader;
* `shapely.STRtree.query(geom)` returns the tree entries whose
  envelope (axis-aligned bounding box) intersects the envelope of the
  query geometry; the embedding filters the backing list by exactly
  that envelope test (`boxesMeet`), the envelope of
  `Point(center).buffer(radius)` being the square of half-width
  `radius` around the center;
* Python exceptions become the `Except PyErr` monad.
-/

/-- Error kinds raised by the Python code paths modelled here. -/
inductive PyErr where
  | keyError
  | indexError
  | typeError
  | valueError
  | assertionError
deriving DecidableEq, Repr

/-- Python `d[k]` on an id-keyed dict: value or `KeyError`. -/
def getD {α : Type} (l : List (Int × α)) (k : Int) : Except PyErr α :=
  match List.lookup k l with
  | some v => .ok v
  | none => .error .keyError

/-- Python `d[k] = v` on an id-keyed dict: replace or append. -/
def dictSet {α : Type} (l : List (Int × α)) (k : Int) (v : α) : List (Int × α) :=
  match l with
  | [] => [(k, v)]
  | (k0, v0) :: rest => if k0 = k then (k, v) :: rest else (k0, v0) :: dictSet rest k v

/-- A planar point (x, y) in meters. -/
structure Pt where
  x : ℚ
  y : ℚ
deriving DecidableEq, Repr

/-- Squared Euclidean distance between two points. -/
def ptDistSq (p q : Pt) : ℚ :=
  (p.x - q.x) ^ 2 + (p.y - q.y) ^ 2

/-- Axis-aligned bounding box (envelope). -/
structure Box where
  lo : Pt
  hi : Pt
deriving DecidableEq, Repr

/-- Envelope of a nonempty point list (first point plus the rest). -/
def boxOfPts (p : Pt) (ps : List Pt) : Box :=
  ps.foldl (fun b q => ⟨⟨min b.lo.x q.x, min b.lo.y q.y⟩, ⟨max b.hi.x q.x, max b.hi.y q.y⟩⟩)
    ⟨p, p⟩

/-- Envelope intersection test (shapely `STRtree.query` predicate). -/
def boxesMeet (a b : Box) : Bool :=
  decide (a.lo.x ≤ b.hi.x) && decide (b.lo.x ≤ a.hi.x) &&
  decide (a.lo.y ≤ b.hi.y) && decide (b.lo.y ≤ a.hi.y)

/-- Envelope of `Point(center).buffer(radius)`: the square of half-width
`radius` centered at `center`. -/
def bufferBox (c : Pt) (r : ℚ) : Box :=
  ⟨⟨c.x - r, c.y - r⟩, ⟨c.x + r, c.y + r⟩⟩

/-- Clamp a parameter into [0, 1]. -/
def clamp01 (t : ℚ) : ℚ := max 0 (min 1 t)

/-- Parameter of the point of segment a-b nearest to p. -/
def segT (p a b : Pt) : ℚ :=
  let dd := ptDistSq a b
  if dd = 0 then 0
  else clamp01 (((p.x - a.x) * (b.x - a.x) + (p.y - a.y) * (b.y - a.y)) / dd)

/-- Convex combination a + t * (b - a). -/
def lerpPt (a b : Pt) (t : ℚ) : Pt :=
  ⟨a.x + t * (b.x - a.x), a.y + t * (b.y - a.y)⟩

/-- Point of segment a-b nearest to p. -/
def segNear (p a b : Pt) : Pt := lerpPt a b (segT p a b)

/-- Squared distance from p to segment a-b. -/
def segDistSq (p a b : Pt) : ℚ := ptDistSq p (segNear p a b)

/-- Squared distance from p to the polyline with vertices v :: vs. -/
def polylineDistSq (p : Pt) : Pt → List Pt → ℚ
  | v, [] => ptDistSq p v
  | v, w :: vs => min (segDistSq p v w) (polylineDistSq p w vs)

/-- Edges of a closed ring (consecutive pairs plus the closing edge). -/
def ringEdges : List Pt → List (Pt × Pt)
  | [] => []
  | v :: vs => (v :: vs).zip (vs ++ [v])

/-- Whether the edge spans the horizontal line through p
(even-odd ray-crossing test, rightward ray). -/
def straddles (p : Pt) (e : Pt × Pt) : Bool :=
  decide (e.1.y ≤ p.y) != decide (e.2.y ≤ p.y)

/-- x-coordinate where the edge meets the horizontal line through p
(only meaningful when `straddles`). -/
def crossX (p : Pt) (e : Pt × Pt) : ℚ :=
  e.1.x + (e.2.x - e.1.x) * ((p.y - e.1.y) / (e.2.y - e.1.y))

/-- Edge is crossed by the rightward ray from p. -/
def rayCrosses (p : Pt) (e : Pt × Pt) : Bool :=
  straddles p e && decide (p.x < crossX p e)

/-- Even-odd point-in-ring test. -/
def pointInRing (p : Pt) (ring : List Pt) : Bool :=
  ((ringEdges ring).countP (rayCrosses p)) % 2 == 1

/-- A shapely geometry as used by the map module: POI points, lane
centerlines and AOI polygons (or degenerate point AOIs). -/
inductive Geom where
  | point (p : Pt)
  | line (pts : List Pt)
  | poly (ring : List Pt)
deriving DecidableEq, Repr

/-- Squared pointwise distance from c to a geometry (0 inside a
polygon, otherwise distance to its boundary, as in shapely). -/
def geomDistSq (c : Pt) : Geom → ℚ
  | .point p => ptDistSq c p
  | .line [] => 0
  | .line (v :: vs) => polylineDistSq c v vs
  | .poly [] => 0
  | .poly (v :: vs) =>
    if pointInRing c (v :: vs) then 0
    else polylineDistSq c v (vs ++ [v])

/-- Envelope of a geometry (vertex envelope; degenerate for empties). -/
def geomBox : Geom → Box
  | .point p => ⟨p, p⟩
  | .line [] => ⟨⟨0, 0⟩, ⟨0, 0⟩⟩
  | .line (v :: vs) => boxOfPts v vs
  | .poly [] => ⟨⟨0, 0⟩, ⟨0, 0⟩⟩
  | .poly (v :: vs) => boxOfPts v vs

/-- A LineString together with its per-segment arc lengths
(`lens.length = pts.length - 1`; shapely computes these as Euclidean
lengths, carried here as data, see the module comment). -/
structure PLine where
  pts : List Pt
  lens : List ℚ
deriving DecidableEq, Repr

/-- Total arc length (`geo.length`). -/
def PLine.arcLen (pl : PLine) : ℚ := pl.lens.foldl (· + ·) 0

/-- shapely `geo.reverse()`. -/
def PLine.rev (pl : PLine) : PLine := ⟨pl.pts.reverse, pl.lens.reverse⟩

/-- shapely `geo.interpolate(s)` (clamped at both ends). -/
def interpolateAux : List Pt → List ℚ → ℚ → Pt
  | [], _, _ => ⟨0, 0⟩
  | [p], _, _ => p
  | p :: q :: ps, l :: ls, s =>
    if s ≤ 0 then p
    else if s ≤ l then (if l = 0 then p else lerpPt p q (s / l))
    else interpolateAux (q :: ps) ls (s - l)
  | p :: _ :: _, [], _ => p

/-- shapely `geo.interpolate(s)`. -/
def PLine.interpolate (pl : PLine) (s : ℚ) : Pt := interpolateAux pl.pts pl.lens s

/-- Cumulative arc-length positions of the vertices (0, l1, l1+l2, …). -/
def cumPositions (lens : List ℚ) : List ℚ :=
  lens.scanl (· + ·) 0

/-- Coordinates of shapely `substring(geo, s1, s2)` for
0 ≤ s1 ≤ s2 ≤ length (the range exercised by `_route_to_xys`):
the point at s1, the vertices strictly between s1 and s2, the point at
s2; a degenerate Point when s1 = s2. -/
def substringCoords (pl : PLine) (s1 s2 : ℚ) : List Pt :=
  if s1 = s2 then [pl.interpolate s1]
  else
    pl.interpolate s1 ::
      ((pl.pts.zip (cumPositions pl.lens)).filter
        (fun vc => decide (s1 < vc.2) && decide (vc.2 < s2))).map (·.1)
      ++ [pl.interpolate s2]

/-- Arc-length position of the projection of p onto the line
(shapely `geo.project(p)`): distance along the line to the nearest
point, taking the first nearest segment on ties. -/
def projectAux (p : Pt) : List Pt → List ℚ → ℚ → ℚ × ℚ
  | [], _, acc => (acc, 0)
  | [v], _, acc => (acc, ptDistSq p v)
  | v :: w :: vs, l :: ls, acc =>
    let dHere := segDistSq p v w
    let sHere := acc + segT p v w * l
    let rest := projectAux p (w :: vs) ls (acc + l)
    if dHere ≤ rest.2 then (sHere, dHere) else rest
  | v :: _ :: _, [], acc => (acc, ptDistSq p v)

/-- shapely `geo.project(p)`. -/
def PLine.project (pl : PLine) (p : Pt) : ℚ := (projectAux p pl.pts pl.lens 0).1

/-- Twice the signed area of a ring (shoelace over closing edges). -/
def ringArea2 (ring : List Pt) : ℚ :=
  ((ringEdges ring).map (fun e => e.1.x * e.2.y - e.2.x * e.1.y)).foldl (· + ·) 0

/-- Area centroid of a polygon ring (shapely `Polygon(...).centroid`;
undefined for zero-area rings, where shapely yields NaN). -/
def ringCentroid (ring : List Pt) : Pt :=
  let a2 := ringArea2 ring
  let cx := ((ringEdges ring).map
    (fun e => (e.1.x + e.2.x) * (e.1.x * e.2.y - e.2.x * e.1.y))).foldl (· + ·) 0
  let cy := ((ringEdges ring).map
    (fun e => (e.1.y + e.2.y) * (e.1.x * e.2.y - e.2.x * e.1.y))).foldl (· + ·) 0
  ⟨cx / (3 * a2), cy / (3 * a2)⟩

/-- Centroid of a geometry (`shapely_xy.centroid` as used on AOIs). -/
def geomCentroid : Geom → Pt
  | .point p => p
  | .line [] => ⟨0, 0⟩
  | .line (v :: _) => v
  | .poly ring => ringCentroid ring

/-- An AOI access point: lane id plus arc-length position s
(`LanePosition` in the data). -/
structure LanePos where
  laneId : Int
  s : ℚ
deriving DecidableEq, Repr

/-- Raw lane record fields read by `Map._parse_map`. -/
structure RawLane where
  id : Int
  type : Int
  turn : Int
  maxSpeed : ℚ
  length : ℚ
  centerLine : List Pt
deriving DecidableEq, Repr

/-- Raw road record fields read by `Map._parse_map`. -/
structure RawRoad where
  id : Int
  laneIds : List Int
deriving DecidableEq, Repr

/-- Raw AOI record fields read by the map module.  `area = none`
models a record without an `"area"` key. -/
structure RawAoi where
  id : Int
  positions : List Pt
  area : Option ℚ
  walkingPositions : List LanePos
  drivingPositions : List LanePos
  urbanLandUse : String
deriving DecidableEq, Repr

/-- Raw POI record fields read by the map module. -/
structure RawPoi where
  id : Int
  name : String
  category : String
  position : Pt
  aoiId : Int
deriving DecidableEq, Repr

/-- Raw junction record fields read by `Map._parse_map`. -/
structure RawJunction where
  id : Int
  laneIds : List Int
deriving DecidableEq, Repr

/-- Raw header record (`projection` feeds `pyproj.Proj`). -/
structure RawHeader where
  projection : String
deriving DecidableEq, Repr

/-- One tagged record of the loader input (the `{"class": t, "data": d}`
shape; the tag is carried by the constructor). -/
inductive RawEntity where
  | lane (v : RawLane)
  | road (v : RawRoad)
  | aoi (v : RawAoi)
  | poi (v : RawPoi)
  | junction (v : RawJunction)
  | header (v : RawHeader)
deriving DecidableEq, Repr

/-- Lane after the geometry pass: raw fields plus `shapely_xy` and
`shapely_lnglat`. -/
structure Lane where
  id : Int
  type : Int
  turn : Int
  maxSpeed : ℚ
  length : ℚ
  centerLine : List Pt
  shapelyXY : PLine
  shapelyLnglat : List Pt
deriving DecidableEq, Repr

/-- Road after the geometry pass: raw fields plus `driving_lane_ids`
and the attributes copied from the selected center lane. -/
structure Road where
  id : Int
  laneIds : List Int
  drivingLaneIds : List Int
  length : ℚ
  maxSpeed : ℚ
  shapelyXY : PLine
  shapelyLnglat : List Pt
deriving DecidableEq, Repr

/-- AOI after the geometry pass. -/
structure Aoi where
  id : Int
  positions : List Pt
  area : Option ℚ
  walkingPositions : List LanePos
  drivingPositions : List LanePos
  urbanLandUse : String
  shapelyXY : Geom
  shapelyLnglat : Geom
deriving DecidableEq, Repr

/-- POI after the geometry pass. -/
structure Poi where
  id : Int
  name : String
  category : String
  position : Pt
  aoiId : Int
  shapelyXY : Pt
  shapelyLnglat : Pt
deriving DecidableEq, Repr

/-- Junction after the geometry pass (approximate center). -/
structure Junction where
  id : Int
  laneIds : List Int
  center : Pt
deriving DecidableEq, Repr

/-- The loaded map (`Map._parse_map` output). -/
structure MapV where
  header : RawHeader
  lanes : List (Int × Lane)
  roads : List (Int × Road)
  aois : List (Int × Aoi)
  pois : List (Int × Poi)
  juncs : List (Int × Junction)
deriving DecidableEq, Repr

/-- Partition of the tagged input records into the five id-keyed
dicts plus the header (`for d in m: ...` in `_parse_map`). -/
structure RawPartition where
  header : Option RawHeader
  lanes : List (Int × RawLane)
  roads : List (Int × RawRoad)
  aois : List (Int × RawAoi)
  pois : List (Int × RawPoi)
  juncs : List (Int × RawJunction)
deriving Repr

/-- Fold step of the partition loop in `_parse_map`. -/
def partitionStep (p : RawPartition) : RawEntity → RawPartition
  | .lane v => { p with lanes := dictSet p.lanes v.id v }
  | .junction v => { p with juncs := dictSet p.juncs v.id v }
  | .road v => { p with roads := dictSet p.roads v.id v }
  | .aoi v => { p with aois := dictSet p.aois v.id v }
  | .poi v => { p with pois := dictSet p.pois v.id v }
  | .header v => { p with header := some v }

/-- The partition loop in `_parse_map`. -/
def partitionRecords (m : List RawEntity) : RawPartition :=
  m.foldl partitionStep ⟨none, [], [], [], [], []⟩

/-- Per-segment lengths of a vertex list (the lengths shapely stores
for the LineString; `segLen` is the Euclidean length oracle). -/
def consecLens (segLen : Pt → Pt → ℚ) : List Pt → List ℚ
  | [] => []
  | [_] => []
  | p :: q :: ps => segLen p q :: consecLens segLen (q :: ps)

/-- Lane geometry pass of `_parse_map`: build `shapely_xy` from the
centerline nodes and `shapely_lnglat` by pointwise inverse
projection. -/
def buildLane (projInv : Pt → Pt) (segLen : Pt → Pt → ℚ) (rl : RawLane) : Lane :=
  { id := rl.id, type := rl.type, turn := rl.turn, maxSpeed := rl.maxSpeed,
    length := rl.length, centerLine := rl.centerLine,
    shapelyXY := ⟨rl.centerLine, consecLens segLen rl.centerLine⟩,
    shapelyLnglat := rl.centerLine.map projInv }

/-- Road pass of `_parse_map`:
`driving_lane_ids = [lid for lid in lane_ids if lanes[lid]["type"] == 1]`,
then `center_lane_id = lane_ids[len(driving_lane_ids) // 2]` and the
length / max speed / planar / geographic geometry are copied from
`lanes[center_lane_id]`.  Note the index is into the full `lane_ids`
list. -/
def parseRoad (lanes : List (Int × Lane)) (rr : RawRoad) : Except PyErr Road :=
  match rr.laneIds.mapM (fun lid => (getD lanes lid).map (fun l => (lid, l))) with
  | .error e => .error e
  | .ok looked =>
    let drivingLaneIds := (looked.filter (fun p => p.2.type == 1)).map (·.1)
    match rr.laneIds[drivingLaneIds.length / 2]? with
    | none => .error .indexError
    | some centerLaneId =>
      match getD lanes centerLaneId with
      | .error e => .error e
      | .ok centerLane =>
        .ok { id := rr.id, laneIds := rr.laneIds, drivingLaneIds := drivingLaneIds,
              length := centerLane.length, maxSpeed := centerLane.maxSpeed,
              shapelyXY := centerLane.shapelyXY,
              shapelyLnglat := centerLane.shapelyLnglat }

/-- AOI pass of `_parse_map`: a record without an `"area"` key becomes
a degenerate Point at its first boundary vertex, otherwise a Polygon
over all vertices; the geographic twin is built by pointwise inverse
projection.  Empty `positions` make the Python code fail on
`positions[0]` / `xys[:, 0]`. -/
def buildAoi (projInv : Pt → Pt) (ra : RawAoi) : Except PyErr Aoi :=
  match ra.positions with
  | [] => .error .indexError
  | p0 :: rest =>
    let lnglat := (p0 :: rest).map projInv
    .ok { id := ra.id, positions := ra.positions, area := ra.area,
          walkingPositions := ra.walkingPositions,
          drivingPositions := ra.drivingPositions,
          urbanLandUse := ra.urbanLandUse,
          shapelyXY := match ra.area with
            | none => .point p0
            | some _ => .poly (p0 :: rest),
          shapelyLnglat := match ra.area with
            | none => .point (projInv p0)
            | some _ => .poly lnglat }

/-- POI pass of `_parse_map`. -/
def buildPoi (projInv : Pt → Pt) (rp : RawPoi) : Poi :=
  { id := rp.id, name := rp.name, category := rp.category,
    position := rp.position, aoiId := rp.aoiId,
    shapelyXY := rp.position, shapelyLnglat := projInv rp.position }

/-- Junction pass of `_parse_map`: look up every owned lane (KeyError
when missing) and take the centroid of the union of their planar
geometries (`unionCentroid` is the shapely oracle for
`unary_union(...).centroid`). -/
def buildJunction (lanes : List (Int × Lane)) (unionCentroid : List PLine → Pt)
    (rj : RawJunction) : Except PyErr Junction := do
  let owned ← rj.laneIds.mapM (getD lanes)
  .ok { id := rj.id, laneIds := rj.laneIds,
        center := unionCentroid (owned.map (·.shapelyXY)) }

/-- Apply an effectful builder to every value of an id-keyed dict. -/
def mapValuesM {α β : Type} (f : α → Except PyErr β) :
    List (Int × α) → Except PyErr (List (Int × β))
  | [] => .ok []
  | kv :: rest =>
    match f kv.2 with
    | .error e => .error e
    | .ok b =>
      match mapValuesM f rest with
      | .error e => .error e
      | .ok rest2 => .ok ((kv.1, b) :: rest2)

/-- `Map._parse_map`: partition the records, require a header
(`assert header is not None`), then run the lane, road, AOI, POI and
junction passes. -/
def parseMap (projInv : Pt → Pt) (segLen : Pt → Pt → ℚ)
    (unionCentroid : List PLine → Pt) (m : List RawEntity) : Except PyErr MapV :=
  let p := partitionRecords m
  match p.header with
  | none => .error .assertionError
  | some hd =>
    let lanes := p.lanes.map (fun kv => (kv.1, buildLane projInv segLen kv.2))
    match mapValuesM (parseRoad lanes) p.roads with
    | .error e => .error e
    | .ok roads =>
      match mapValuesM (buildAoi projInv) p.aois with
      | .error e => .error e
      | .ok aois =>
        let pois := p.pois.map (fun kv => (kv.1, buildPoi projInv kv.2))
        match mapValuesM (buildJunction lanes unionCentroid) p.juncs with
        | .error e => .error e
        | .ok juncs =>
          .ok { header := hd, lanes := lanes, roads := roads, aois := aois,
                pois := pois, juncs := juncs }

/-- Python `str.startswith` (character-level prefix test). -/
def strStarts (pfx s : String) : Bool := pfx.data.isPrefixOf s.data

/-- Stable sort by a boolean comparison (insertion sort).  Python's
`sorted` is a stable sort, and all stable sorts agree as functions of
the list and the key, so this is exactly `sorted(..., key=...)`. -/
def insertSorted {α : Type} (le : α → α → Bool) (x : α) : List α → List α
  | [] => [x]
  | y :: ys => if le x y then x :: y :: ys else y :: insertSorted le x ys

/-- Stable sort by a boolean comparison (insertion sort). -/
def sortByKey {α : Type} (le : α → α → Bool) : List α → List α
  | [] => []
  | x :: xs => insertSorted le x (sortByKey le xs)

/-- Comparison key of the result sort (`key=lambda x: x[1]`). -/
def leBySnd {α : Type} (a b : α × ℚ) : Bool := decide (a.2 ≤ b.2)

/-- Comparison key of the lane-result sort (`key=lambda x: x[2]`). -/
def leByThird {α β : Type} (a b : α × β × ℚ) : Bool := decide (a.2.2 ≤ b.2.2)

/-- `Map.query_pois`, generically over the element type of the backing
list `_poi_list` (instantiated with `Poi` for the value view and with
the address-carrying records for the aliasing claims): STRtree
candidates of `center.buffer(radius)`, category-prefix filter with the
center distance attached, stable sort by distance, then the optional
`[:limit]` cut. -/
def queryPoisG {π : Type} (poiList : List π) (category : π → String) (posOf : π → Pt)
    (center : Pt) (radius : ℚ) (categoryPfx : String) (limit : Option Nat) :
    List (π × ℚ) :=
  let cands := poiList.filter
    (fun poi => boxesMeet (geomBox (.point (posOf poi))) (bufferBox center radius))
  let pois := cands.filterMap
    (fun poi => if strStarts categoryPfx (category poi)
      then some (poi, ptDistSq center (posOf poi)) else none)
  let pois := sortByKey leBySnd pois
  match limit with
  | some n => pois.take n
  | none => pois

/-- `Map.query_aois`, generically over the element type of
`_aoi_list`: STRtree candidates, land-use filter (`continue` when a
filter list is given and the AOI's class is not in it), distance
attached, stable sort by distance, optional `[:limit]` cut. -/
def queryAoisG {α : Type} (aoiList : List α) (landUse : α → String) (geomOf : α → Geom)
    (center : Pt) (radius : ℚ) (urbanLandUses : Option (List String))
    (limit : Option Nat) : List (α × ℚ) :=
  let cands := aoiList.filter
    (fun aoi => boxesMeet (geomBox (geomOf aoi)) (bufferBox center radius))
  let aois := cands.filterMap
    (fun aoi =>
      match urbanLandUses with
      | some uses => if (landUse aoi) ∈ uses
          then some (aoi, geomDistSq center (geomOf aoi)) else none
      | none => some (aoi, geomDistSq center (geomOf aoi)))
  let aois := sortByKey leBySnd aois
  match limit with
  | some n => aois.take n
  | none => aois

/-- The loop body of `Map.query_lane` over the candidate lanes:
attach distance, skip candidates with `distance > radius`, attach the
arc-length projection s, sort by distance. -/
def queryLaneListG {l : Type} (laneList : List l) (geomOf : l → PLine)
    (xy : Pt) (radius : ℚ) : List (l × ℚ × ℚ) :=
  let cands := laneList.filter
    (fun lane => boxesMeet (geomBox (.line (geomOf lane).pts)) (bufferBox xy radius))
  let result := cands.filterMap
    (fun lane =>
      let distance := geomDistSq xy (.line (geomOf lane).pts)
      if distance > radius ^ 2 then none
      else some (lane, (geomOf lane).project xy, distance))
  sortByKey leByThird result

/-- `Map._build_geo_index` lane lists: driving lanes are
`type == 1`, walking lanes `type == 2`. -/
def drivingLaneList (m : MapV) : List Lane :=
  (m.lanes.map (·.2)).filter (fun lane => lane.type == 1)

/-- `Map._build_geo_index` walking-lane list. -/
def walkingLaneList (m : MapV) : List Lane :=
  (m.lanes.map (·.2)).filter (fun lane => lane.type == 2)

/-- `Map.query_pois` on a loaded map. -/
def queryPois (m : MapV) (center : Pt) (radius : ℚ) (categoryPfx : String)
    (limit : Option Nat) : List (Poi × ℚ) :=
  queryPoisG (m.pois.map (·.2)) Poi.category Poi.shapelyXY center radius categoryPfx limit

/-- `Map.query_aois` on a loaded map. -/
def queryAois (m : MapV) (center : Pt) (radius : ℚ)
    (urbanLandUses : Option (List String)) (limit : Option Nat) : List (Aoi × ℚ) :=
  queryAoisG (m.aois.map (·.2)) Aoi.urbanLandUse Aoi.shapelyXY center radius
    urbanLandUses limit

/-- `Map.query_lane`: dispatch on the lane type (1 driving, 2 walking,
otherwise `ValueError`). -/
def queryLane (m : MapV) (xy : Pt) (radius : ℚ) (laneType : Int) :
    Except PyErr (List (Lane × ℚ × ℚ)) :=
  if laneType = 1 then
    .ok (queryLaneListG (drivingLaneList m) Lane.shapelyXY xy radius)
  else if laneType = 2 then
    .ok (queryLaneListG (walkingLaneList m) Lane.shapelyXY xy radius)
  else .error .valueError

/-- `geo_pb2.Position` as used by the route export: exactly one of
`aoi_position` and `lane_position` is set (or neither, for the
`assert False` branch). -/
inductive Position where
  | aoiPosition (aoiId : Int)
  | lanePosition (laneId : Int) (s : ℚ)
  | unset
deriving DecidableEq, Repr

/-- `routing_pb2.MOVING_DIRECTION_BACKWARD`. -/
def MOVING_DIRECTION_BACKWARD : Int := 2

/-- `routing_pb2.ROUTE_TYPE_DRIVING`. -/
def ROUTE_TYPE_DRIVING : Int := 1

/-- `routing_pb2.ROUTE_TYPE_WALKING`. -/
def ROUTE_TYPE_WALKING : Int := 2

/-- `routing_pb2.JOURNEY_TYPE_DRIVING`. -/
def JOURNEY_TYPE_DRIVING : Int := 1

/-- `routing_pb2.JOURNEY_TYPE_WALKING`. -/
def JOURNEY_TYPE_WALKING : Int := 2

/-- `routing_pb2.WalkingRouteSegment` fields used here. -/
structure WalkSeg where
  laneId : Int
  movingDirection : Int
deriving DecidableEq, Repr

/-- One journey of a routing result.  Protobuf sub-messages default to
empty, so `walkingRoute` is `[]` on a driving journey and
`drivingRoadIds` is `[]` on a walking journey — exactly the shape the
Python attribute accesses see. -/
structure Journey where
  jtype : Int
  walkingRoute : List WalkSeg
  drivingRoadIds : List Int
deriving DecidableEq, Repr

/-- `routing_service.GetRouteRequest` fields used here. -/
structure GetRouteRequest where
  rtype : Int
  startPos : Position
  endPos : Position
deriving DecidableEq, Repr

/-- `routing_service.GetRouteResponse` fields used here. -/
structure GetRouteResponse where
  journeys : List Journey
deriving DecidableEq, Repr

/-- `Map._get_lane_s`: for an AOI position, collect the s values of
the AOI's combined walking and driving access points on the given
lane and assert there is exactly one; for a lane position, return its
s directly. -/
def getLaneS (m : MapV) (position : Position) (laneId : Int) : Except PyErr ℚ :=
  match position with
  | .aoiPosition aoiId =>
    match List.lookup aoiId m.aois with
    | none => .error .keyError
    | some aoi =>
      match ((aoi.walkingPositions ++ aoi.drivingPositions).filter
          (fun p => p.laneId == laneId)).map (·.s) with
      | [s] => .ok s
      | _ => .error .assertionError
  | .lanePosition _ s => .ok s
  | .unset => .error .assertionError

/-- `Map._get_driving_geo`: last driving lane id of the road plus the
road's planar geometry. -/
def getDrivingGeo (m : MapV) (roadId : Int) : Except PyErr (Int × PLine) := do
  let road ← getD m.roads roadId
  match road.drivingLaneIds.getLast? with
  | none => .error .indexError
  | some aoiLaneId => .ok (aoiLaneId, road.shapelyXY)

/-- `Map._get_walking_geo`: the segment's lane geometry, reversed for
backward traversal. -/
def getWalkingGeo (m : MapV) (segment : WalkSeg) : Except PyErr (Int × PLine) := do
  let lane ← getD m.lanes segment.laneId
  let geo := lane.shapelyXY
  let geo := if segment.movingDirection = MOVING_DIRECTION_BACKWARD then geo.rev else geo
  .ok (segment.laneId, geo)

/-- Python `xs[0]` with IndexError. -/
def pyHead {α : Type} (xs : List α) : Except PyErr α :=
  match xs with
  | [] => .error .indexError
  | x :: _ => .ok x

/-- Python `xs[-1]` with IndexError. -/
def pyLast {α : Type} (xs : List α) : Except PyErr α :=
  match xs.getLast? with
  | none => .error .indexError
  | some x => .ok x

/-- Per-journey coordinate collection of `Map._route_to_xys`,
translated clause by clause.  Note that both the single-segment test
and the final-truncation test inspect `len(journey.walking.route)`
even on a driving journey (where that list is always empty). -/
def journeyCoords (m : MapV) (req : GetRouteRequest) (isWalk : Bool)
    (journey : Journey) : Except PyErr (List Pt) := do
  if isWalk then
    (if journey.jtype = JOURNEY_TYPE_WALKING then .ok () else .error .assertionError)
  else
    (if journey.jtype = JOURNEY_TYPE_DRIVING then .ok () else .error .assertionError)
  let (laneId, geo) ←
    if isWalk then do
      let seg ← pyHead journey.walkingRoute
      getWalkingGeo m seg
    else do
      let rid ← pyHead journey.drivingRoadIds
      getDrivingGeo m rid
  let startS ← getLaneS m req.startPos laneId
  let geo1 ←
    if journey.walkingRoute.length = 1 then do
      let endS ← getLaneS m req.endPos laneId
      .ok (substringCoords geo startS endS)
    else
      .ok (substringCoords geo startS geo.arcLen)
  let middle ←
    if isWalk then do
      let geos ← (journey.walkingRoute.drop 1).dropLast.mapM (getWalkingGeo m)
      .ok (geos.map (fun g => g.2.pts))
    else do
      let geos ← (journey.drivingRoadIds.drop 1).dropLast.mapM (getDrivingGeo m)
      .ok (geos.map (fun g => g.2.pts))
  let final ←
    if journey.walkingRoute.length > 1 then do
      let (laneId, geo) ←
        if isWalk then do
          let seg ← pyLast journey.walkingRoute
          getWalkingGeo m seg
        else do
          let rid ← pyLast journey.drivingRoadIds
          getDrivingGeo m rid
      let endS ← getLaneS m req.endPos laneId
      .ok (substringCoords geo 0 endS)
    else
      .ok []
  .ok (geo1 ++ middle.flatten ++ final)

/-- `Map._route_to_xys`: assert the route type, collect the journey
coordinates, and bracket them with the AOI planar centroids when the
request's start / end are AOI references. -/
def routeToXys (m : MapV) (req : GetRouteRequest) (res : GetRouteResponse) :
    Except PyErr (List Pt) := do
  (if req.rtype = ROUTE_TYPE_DRIVING ∨ req.rtype = ROUTE_TYPE_WALKING
    then .ok () else .error .assertionError)
  let isWalk := req.rtype = ROUTE_TYPE_WALKING
  let chunks ← res.journeys.mapM (journeyCoords m req isWalk)
  let coordinates := chunks.flatten
  let coordinates ←
    match req.startPos with
    | .aoiPosition aoiId => do
      let aoi ← getD m.aois aoiId
      .ok (geomCentroid aoi.shapelyXY :: coordinates)
    | _ => .ok coordinates
  let coordinates ←
    match req.endPos with
    | .aoiPosition aoiId => do
      let aoi ← getD m.aois aoiId
      .ok (coordinates ++ [geomCentroid aoi.shapelyXY])
    | _ => .ok coordinates
  .ok coordinates

/-- `Map.export_route_as_geojson`, up to the Feature wrapper: the
planar polyline of `_route_to_xys` converted pointwise to geographic
coordinates by the inverse projection. -/
def exportRouteCoords (m : MapV) (projInv : Pt → Pt) (req : GetRouteRequest)
    (res : GetRouteResponse) : Except PyErr (List Pt) :=
  (routeToXys m req res).map (fun cs => cs.map projInv)

/-!
The ID lookups (`get_aoi`, `get_poi`, `get_lane`, `get_road`,
`get_junction`) operate on the raw stored dicts: deepcopy, then ad hoc
key deletion.  Those dicts are JSON-derived trees; the embedding
models them as `Doc` trees with string keys and opaque scalar leaves
(the scalar payloads — numbers, strings, geometries — are never
inspected by the lookup code, only copied, so they are abstracted to
an `Int` code).
-/

mutual
/-- A stored Python record: an opaque scalar or a dict. -/
inductive Doc where
  | leaf (v : Int)
  | node (fields : Fields)
/-- The key/value entries of a dict record. -/
inductive Fields where
  | fnil
  | fcons (key : String) (val : Doc) (rest : Fields)
end

deriving instance DecidableEq for Doc
deriving instance Repr for Doc

/-- Python `k in doc` on the top-level keys. -/
def Fields.hasKey : Fields → String → Bool
  | .fnil, _ => false
  | .fcons k _ rest, key => k == key || rest.hasKey key

/-- Remove the entry of a key (dict keys are unique, so removing every
occurrence models `del doc[k]`). -/
def Fields.eraseKey : Fields → String → Fields
  | .fnil, _ => .fnil
  | .fcons k v rest, key =>
    if k == key then rest.eraseKey key else .fcons k v (rest.eraseKey key)

/-- Python `doc[k]` on a dict: first (unique) entry of the key. -/
def Fields.findKey : Fields → String → Option Doc
  | .fnil, _ => none
  | .fcons k v rest, key => if k == key then some v else rest.findKey key

/-- Python `doc[k] = v` on a dict (replace the entry in place). -/
def Fields.setKey : Fields → String → Doc → Fields
  | .fnil, key, v => .fcons key v .fnil
  | .fcons k v0 rest, key, v =>
    if k == key then .fcons k v rest else .fcons k v0 (rest.setKey key v)

/-- Python `del doc[k]`: `KeyError` when absent, `TypeError` on a
non-dict. -/
def pyDelKey (d : Doc) (k : String) : Except PyErr Doc :=
  match d with
  | .leaf _ => .error .typeError
  | .node fs =>
    if fs.hasKey k then .ok (.node (fs.eraseKey k)) else .error .keyError

/-- Python `if k in doc: del doc[k]`: identity when absent,
`TypeError` when `doc` is not a container (non-dict leaves here stand
for non-container scalars; a string-valued leaf would instead make
`in` a substring test, which the AOI/lane records never hold for the
stripped keys). -/
def pyDelKeyIfPresent (d : Doc) (k : String) : Except PyErr Doc :=
  match d with
  | .leaf _ => .error .typeError
  | .node fs => .ok (.node (fs.eraseKey k))

/-- `Map.get_aoi` on the stored records (deepcopy is the identity on
this value view; the aliasing content of deepcopy is treated in the
heap model below): absent id gives `None`; with the default
`include_unused=False` the copy loses its `"type"` key
unconditionally (`del doc["type"]`) and, guarded by presence checks,
the four bookkeeping entries of `doc["external"]`. -/
def getAoi (aois : List (Int × Doc)) (id : Int) (includeUnused : Bool) :
    Except PyErr (Option Doc) :=
  match List.lookup id aois with
  | none => .ok none
  | some doc =>
    if includeUnused then .ok (some doc)
    else
      match pyDelKey doc "type" with
      | .error e => .error e
      | .ok (.leaf v) => .ok (some (.leaf v))
      | .ok (.node fs) =>
        match fs.findKey "external" with
        | none => .ok (some (.node fs))
        | some ext =>
          match pyDelKeyIfPresent ext "driving_distances" with
          | .error e => .error e
          | .ok ext =>
            match pyDelKeyIfPresent ext "driving_lane_project_point" with
            | .error e => .error e
            | .ok ext =>
              match pyDelKeyIfPresent ext "walking_distances" with
              | .error e => .error e
              | .ok ext =>
                match pyDelKeyIfPresent ext "walking_lane_project_point" with
                | .error e => .error e
                | .ok ext => .ok (some (.node (fs.setKey "external" ext)))

/-- `Map.get_poi` on the stored records (no keys are stripped; the
`include_unused` branch body is `...`). -/
def getPoi (pois : List (Int × Doc)) (id : Int) (includeUnused : Bool) :
    Except PyErr (Option Doc) :=
  match List.lookup id pois with
  | none => .ok none
  | some doc => .ok (some doc)

/-- `Map.get_lane` on the stored records: absent id gives `None`;
with the default flag the guarded deletions of `left_border_line`,
`right_border_line` and `overlaps` run on the copy. -/
def getLane (lanes : List (Int × Doc)) (id : Int) (includeUnused : Bool) :
    Except PyErr (Option Doc) :=
  match List.lookup id lanes with
  | none => .ok none
  | some doc =>
    if includeUnused then .ok (some doc)
    else
      match pyDelKeyIfPresent doc "left_border_line" with
      | .error e => .error e
      | .ok doc =>
        match pyDelKeyIfPresent doc "right_border_line" with
        | .error e => .error e
        | .ok doc =>
          match pyDelKeyIfPresent doc "overlaps" with
          | .error e => .error e
          | .ok doc => .ok (some doc)

/-- `Map.get_road` on the stored records (no keys are stripped). -/
def getRoad (roads : List (Int × Doc)) (id : Int) (includeUnused : Bool) :
    Except PyErr (Option Doc) :=
  match List.lookup id roads with
  | none => .ok none
  | some doc => .ok (some doc)

/-- `Map.get_junction` on the stored records: guarded deletions of
`external` and `driving_lane_groups`. -/
def getJunction (juncs : List (Int × Doc)) (id : Int) (includeUnused : Bool) :
    Except PyErr (Option Doc) :=
  match List.lookup id juncs with
  | none => .ok none
  | some doc =>
    if includeUnused then .ok (some doc)
    else
      match pyDelKeyIfPresent doc "external" with
      | .error e => .error e
      | .ok doc =>
        match pyDelKeyIfPresent doc "driving_lane_groups" with
        | .error e => .error e
        | .ok doc => .ok (some doc)

/-!
Heap model for the aliasing claims.  Python objects live on a heap of
cells addressed by `Nat`; a dict cell holds references to its values.
`copy.deepcopy` of a (tree-shaped) record lays out a fresh isomorphic
tree, which is `storeDoc`; reading a tree back is `readDoc` (with
fuel, since an arbitrary heap may contain reference cycles).  The
engine's stored entities are addresses into the heap, and the spatial
index lists hold those same addresses — the queries hand them out
unchanged, while the ID lookups hand out freshly stored copies.
-/

/-- A heap cell: scalar or dict-of-references. -/
inductive HObj where
  | hleaf (v : Int)
  | hnode (fields : List (String × Nat))
deriving DecidableEq, Repr

/-- The heap: cell at address i is entry i; allocation appends. -/
abbrev Heap := List HObj

/-- Cell at an address. -/
def Heap.cell (h : Heap) (a : Nat) : Option HObj := h[a]?

/-- Number of allocated cells. -/
def Heap.size (h : Heap) : Nat := List.length h

/-- Overwrite the cell at an address (a Python field mutation). -/
def Heap.put (h : Heap) (a : Nat) (o : HObj) : Heap := List.set h a o

mutual
/-- Lay out a record tree on the heap with all-fresh cells
(the effect of `copy.deepcopy` on a tree-shaped record): children
first, then the root cell. -/
def storeDoc : Heap → Doc → Heap × Nat
  | h, .leaf v => (h ++ [.hleaf v], h.size)
  | h, .node fs =>
    ((storeFields h fs).1 ++ [.hnode (storeFields h fs).2], (storeFields h fs).1.size)
/-- Lay out every field value, left to right. -/
def storeFields : Heap → Fields → Heap × List (String × Nat)
  | h, .fnil => (h, [])
  | h, .fcons k v rest =>
    ((storeFields (storeDoc h v).1 rest).1,
     (k, (storeDoc h v).2) :: (storeFields (storeDoc h v).1 rest).2)
end

mutual
/-- Read the record tree rooted at an address (fuel-bounded). -/
def readDoc : Nat → Heap → Nat → Option Doc
  | 0, _, _ => none
  | fuel + 1, h, a =>
    match h.cell a with
    | some (.hleaf v) => some (.leaf v)
    | some (.hnode fs) => (readFields fuel h fs).map .node
    | none => none
  termination_by fuel _ _ => (fuel, 0)
/-- Read every field value. -/
def readFields : Nat → Heap → List (String × Nat) → Option Fields
  | _, _, [] => some .fnil
  | fuel, h, (k, a) :: rest =>
    match readDoc fuel h a, readFields fuel h rest with
    | some v, some fs => some (.fcons k v fs)
    | _, _ => none
  termination_by fuel _ fs => (fuel, fs.length + 1)
end

mutual
/-- Tree height, the fuel needed to read a stored copy back. -/
def Doc.height : Doc → Nat
  | .leaf _ => 1
  | .node fs => fs.height + 1
/-- Height of the deepest field value. -/
def Fields.height : Fields → Nat
  | .fnil => 0
  | .fcons _ v rest => max v.height rest.height
end

/-- Strip a list of keys from the top level of a record tree (the net
effect of the `include_unused=False` deletions of `get_lane` /
`get_junction` on the copy). -/
def stripKeys (d : Doc) (keys : List String) : Doc :=
  match d with
  | .leaf v => .leaf v
  | .node fs => .node (keys.foldl Fields.eraseKey fs)

/-- Heaps referencing only earlier cells from each dict cell — true of
every heap grown from `[]` by `storeDoc`, and the invariant making
reads depend only on the cells at or below the root address. -/
def WFHeap (h : Heap) : Prop :=
  ∀ a fs, h.cell a = some (.hnode fs) → ∀ kv, kv ∈ fs → kv.2 < a

/-- Executable check for `WFHeap` (cell at offset j of the tail
references below n + j). -/
def wfbAux : Nat → List HObj → Bool
  | _, [] => true
  | n, o :: t =>
    (match o with
     | .hnode fs => fs.all (fun kv => decide (kv.2 < n))
     | .hleaf _ => true) && wfbAux (n + 1) t

/-- Executable check for `WFHeap`. -/
def wfb (h : Heap) : Bool := wfbAux 0 h

/-- `del doc[k]` on the heap: rewrite the dict cell at the address,
dropping the key's entry; identity on a missing key or a non-dict
cell (the guarded form `if k in doc: del doc[k]`). -/
def hDelKeyIfPresent (h : Heap) (a : Nat) (k : String) : Heap :=
  match h.cell a with
  | some (.hnode fs) => h.put a (.hnode (fs.filter (fun kv => kv.1 ≠ k)))
  | _ => h

/-- The shared shape of the ID lookups on the heap: miss gives
`none` and an untouched heap; a hit deep-copies the stored tree and
deletes the strip keys on the copy's root cell.  `fuel` bounds the
read of the stored tree (a model artifact; Python recursion is
unbounded). -/
def hGetDoc (fuel : Nat) (h : Heap) (store : List (Int × Nat)) (id : Int)
    (keys : List String) : Option (Heap × Option Nat) :=
  match List.lookup id store with
  | none => some (h, none)
  | some a =>
    match readDoc fuel h a with
    | none => none
    | some d =>
      let (h1, a1) := storeDoc h d
      some (keys.foldl (fun hh k => hDelKeyIfPresent hh a1 k) h1, some a1)

/-- `Map.get_lane` on the heap (default `include_unused=False`). -/
def hGetLane (fuel : Nat) (h : Heap) (lanes : List (Int × Nat)) (id : Int)
    (includeUnused : Bool) : Option (Heap × Option Nat) :=
  hGetDoc fuel h lanes id
    (if includeUnused then [] else ["left_border_line", "right_border_line", "overlaps"])

/-- A POI as the engine holds it: the stored dict's address plus the
value view the query code reads from it. -/
structure HPoi where
  addr : Nat
  poi : Poi
deriving DecidableEq, Repr

/-- An AOI as the engine holds it. -/
structure HAoi where
  addr : Nat
  aoi : Aoi
deriving DecidableEq, Repr

/-- A lane as the engine holds it. -/
structure HLane where
  addr : Nat
  lane : Lane
deriving DecidableEq, Repr

/-- The loaded engine as the query layer sees it: the heap of stored
records and the id-ordered entity lists (`list(self.xxx.values())`)
feeding `_build_geo_index`. -/
structure HEngine where
  heap : Heap
  pois : List HPoi
  aois : List HAoi
  lanes : List HLane
deriving Repr

/-- `_build_geo_index` driving-lane list over the stored records. -/
def hDrivingLaneList (e : HEngine) : List HLane :=
  e.lanes.filter (fun l => l.lane.type == 1)

/-- `_build_geo_index` walking-lane list over the stored records. -/
def hWalkingLaneList (e : HEngine) : List HLane :=
  e.lanes.filter (fun l => l.lane.type == 2)

/-- `Map.query_pois` over the engine's stored records: the tuples hold
the records of `_poi_list` themselves. -/
def hQueryPois (e : HEngine) (center : Pt) (radius : ℚ) (categoryPfx : String)
    (limit : Option Nat) : List (HPoi × ℚ) :=
  queryPoisG e.pois (fun p => p.poi.category) (fun p => p.poi.shapelyXY)
    center radius categoryPfx limit

/-- `Map.query_aois` over the engine's stored records. -/
def hQueryAois (e : HEngine) (center : Pt) (radius : ℚ)
    (urbanLandUses : Option (List String)) (limit : Option Nat) : List (HAoi × ℚ) :=
  queryAoisG e.aois (fun a => a.aoi.urbanLandUse) (fun a => a.aoi.shapelyXY)
    center radius urbanLandUses limit

/-- `Map.query_lane` over the engine's stored records. -/
def hQueryLane (e : HEngine) (xy : Pt) (radius : ℚ) (laneType : Int) :
    Except PyErr (List (HLane × ℚ × ℚ)) :=
  if laneType = 1 then
    .ok (queryLaneListG (hDrivingLaneList e) (fun l => l.lane.shapelyXY) xy radius)
  else if laneType = 2 then
    .ok (queryLaneListG (hWalkingLaneList e) (fun l => l.lane.shapelyXY) xy radius)
  else .error .valueError

/-!  Concrete oracles and inputs for the evaluated instances. -/

deriving instance DecidableEq for Except

attribute [local semireducible] Rat.add Rat.sub Rat.mul Rat.inv

set_option maxRecDepth 8000

/-- Identity stand-in for the inverse projection oracle. -/
def idProj : Pt → Pt := fun p => p

/-- Constant stand-in for the segment-length oracle (the concrete
road-pass instances never read the lengths). -/
def unitLen : Pt → Pt → ℚ := fun _ _ => 1

/-- Constant stand-in for the junction-centroid oracle. -/
def zeroCentroid : List PLine → Pt := fun _ => ⟨0, 0⟩

/-- A walking lane record (type 2), max speed 5, length 7. -/
def walkLaneRec : RawLane :=
  { id := 1, type := 2, turn := 1, maxSpeed := 5, length := 7,
    centerLine := [⟨0, 0⟩, ⟨0, 7⟩] }

/-- A driving lane record (type 1), max speed 30, length 9. -/
def driveLaneRec : RawLane :=
  { id := 2, type := 1, turn := 1, maxSpeed := 30, length := 9,
    centerLine := [⟨1, 0⟩, ⟨1, 9⟩] }

/-- Loader input whose road 300 owns only the walking lane — zero
driving lanes. -/
def zeroDrivingRecords : List RawEntity :=
  [.header ⟨"+proj=tmerc"⟩, .lane walkLaneRec, .road ⟨300, [1]⟩]

/-- Loader input whose road 300 lists the walking lane before the
driving lane. -/
def walkFirstRecords : List RawEntity :=
  [.header ⟨"+proj=tmerc"⟩, .lane walkLaneRec, .lane driveLaneRec,
   .road ⟨300, [1, 2]⟩]

/-- C4.  A road record with zero driving lanes does NOT make the build
fail with a distinguishable error: `_parse_map` evaluates
`lane_ids[len(driving_lane_ids) // 2] = lane_ids[0]` and silently
copies the first lane's (here: a walking lane's) length and max speed
onto the road.  Evaluates the loader at the failing input. -/
theorem c4_zero_driving_lanes_silent :
  (parseMap idProj unitLen zeroCentroid zeroDrivingRecords).map
      (fun mv => (List.lookup 300 mv.roads).map
        (fun r => (r.drivingLaneIds, r.maxSpeed, r.length))) =
    .ok (some ([], 5, 7)) := by
  decide

/-- Entries of a successful `mapValuesM` come from applying the
builder to a stored value under the same key. -/
theorem mapValuesM_mem {α β : Type} (f : α → Except PyErr β) :
    ∀ (l : List (Int × α)) (l2 : List (Int × β)), mapValuesM f l = .ok l2 →
      ∀ kv ∈ l2, ∃ a, (kv.1, a) ∈ l ∧ f a = .ok kv.2 := by
  intro l
  induction l with
  | nil =>
    intro l2 h kv hkv
    simp only [mapValuesM] at h
    cases h
    cases hkv
  | cons kv0 rest ih =>
    intro l2 h kv hkv
    simp only [mapValuesM] at h
    cases hf : f kv0.2 with
    | error e => rw [hf] at h; exact Except.noConfusion h
    | ok b =>
      rw [hf] at h
      cases hr : mapValuesM f rest with
      | error e => rw [hr] at h; exact Except.noConfusion h
      | ok rest2 =>
        rw [hr] at h
        cases h
        rcases List.mem_cons.mp hkv with rfl | hmem
        · exact ⟨kv0.2, List.mem_cons_self _ _, hf⟩
        · rcases ih rest2 hr kv hmem with ⟨a, ha, hfa⟩
          exact ⟨a, List.mem_cons_of_mem _ ha, hfa⟩

/-- A prefix agrees with the long list on indices inside the prefix. -/
theorem isPrefix_getElemEq {α : Type} {l1 l2 : List α} (h : l1 <+: l2) {i : Nat}
    (hi : i < l1.length) : l2[i]? = l1[i]? := by
  obtain ⟨t, rfl⟩ := h
  rw [List.getElem?_append]
  simp [hi]

/-- `d[k]` succeeds with v exactly when the dict holds v at k. -/
theorem getD_ok_iff {α : Type} (l : List (Int × α)) (k : Int) (v : α) :
    getD l k = .ok v ↔ List.lookup k l = some v := by
  unfold getD
  cases h : List.lookup k l <;> simp

/-- C1 (amended).  For every road of a loaded map, the derived
length, max speed, planar geometry and geographic geometry are copied
from the lane at index `len(driving_lane_ids) // 2` of the road's
FULL `lane_ids` list — not of its driving-lane sublist.  Whenever the
driving lanes are nonempty and form a prefix of `lane_ids`, this
coincides with the driving lane at index `len(driving_lane_ids) // 2`
of the driving-lane id list (final conjunct). -/
theorem c1_center_lane_from_full_list (projInv : Pt → Pt) (segLen : Pt → Pt → ℚ)
    (uc : List PLine → Pt) (recs : List RawEntity) (mv : MapV) (rid : Int) (road : Road)
    (hok : parseMap projInv segLen uc recs = .ok mv)
    (hmem : (rid, road) ∈ mv.roads) :
    ∃ clid cl,
      road.laneIds[road.drivingLaneIds.length / 2]? = some clid ∧
      List.lookup clid mv.lanes = some cl ∧
      road.length = cl.length ∧ road.maxSpeed = cl.maxSpeed ∧
      road.shapelyXY = cl.shapelyXY ∧ road.shapelyLnglat = cl.shapelyLnglat ∧
      (road.drivingLaneIds ≠ [] → road.drivingLaneIds <+: road.laneIds →
        road.drivingLaneIds[road.drivingLaneIds.length / 2]? = some clid) := by
  simp only [parseMap] at hok
  cases hh : (partitionRecords recs).header with
  | none => rw [hh] at hok; exact Except.noConfusion hok
  | some hd =>
    rw [hh] at hok
    cases hroads : mapValuesM
        (parseRoad ((partitionRecords recs).lanes.map
          (fun kv => (kv.1, buildLane projInv segLen kv.2))))
        (partitionRecords recs).roads with
    | error e => rw [hroads] at hok; exact Except.noConfusion hok
    | ok roads =>
      rw [hroads] at hok
      cases haois : mapValuesM (buildAoi projInv) (partitionRecords recs).aois with
      | error e => rw [haois] at hok; exact Except.noConfusion hok
      | ok aois =>
        rw [haois] at hok
        cases hjuncs : mapValuesM
            (buildJunction ((partitionRecords recs).lanes.map
              (fun kv => (kv.1, buildLane projInv segLen kv.2))) uc)
            (partitionRecords recs).juncs with
        | error e => rw [hjuncs] at hok; exact Except.noConfusion hok
        | ok juncs =>
          rw [hjuncs] at hok
          cases hok
          rcases mapValuesM_mem _ _ _ hroads (rid, road) hmem with ⟨rr, _, hpr⟩
          simp only [parseRoad] at hpr
          split at hpr
          next => exact Except.noConfusion hpr
          next looked hlk =>
            split at hpr
            next => exact Except.noConfusion hpr
            next clid hidx =>
              split at hpr
              next => exact Except.noConfusion hpr
              next cl hcl =>
                cases hpr
                refine ⟨clid, cl, hidx, (getD_ok_iff _ _ _).mp hcl, rfl, rfl, rfl, rfl, ?_⟩
                intro hne hpfx
                have hlt : ((looked.filter (fun p => p.2.type == 1)).map (·.1)).length / 2 <
                    ((looked.filter (fun p => p.2.type == 1)).map (·.1)).length := by
                  refine Nat.div_lt_self ?_ (by omega)
                  simpa [List.length_pos] using hne
                rw [← isPrefix_getElemEq hpfx hlt]
                exact hidx

/-- C1 counterexample.  At the `walkFirstRecords` input, road 300's
driving-lane id list is `[2]` (so the claimed center driving lane is
lane 2, max speed 30), yet the road's derived max speed is 5 — the
walking lane at index `len(driving_lane_ids) // 2 = 0` of the full
lane list. -/
theorem c1_counterexample :
  (parseMap idProj unitLen zeroCentroid walkFirstRecords).map
      (fun mv => (List.lookup 300 mv.roads).map
        (fun r => (r.drivingLaneIds, r.maxSpeed))) =
    .ok (some ([2], 5)) ∧
  (parseMap idProj unitLen zeroCentroid walkFirstRecords).map
      (fun mv => (List.lookup 2 mv.lanes).map (fun l => l.maxSpeed)) =
    .ok (some 30) ∧
  (5 : ℚ) ≠ 30 := by
  refine ⟨?_, ?_, ?_⟩ <;> decide

/-- The map loaded from `walkFirstRecords` (for the C1 witness). -/
def walkFirstMv : MapV :=
  match parseMap idProj unitLen zeroCentroid walkFirstRecords with
  | .ok mv => mv
  | .error _ => ⟨⟨""⟩, [], [], [], [], []⟩

/-- Road 300 of `walkFirstMv` (for the C1 witness). -/
def walkFirstRoad : Road :=
  match List.lookup 300 walkFirstMv.roads with
  | some r => r
  | none => ⟨0, [], [], 0, 0, ⟨[], []⟩, []⟩

theorem c1_center_lane_witness :
  parseMap idProj unitLen zeroCentroid walkFirstRecords = .ok walkFirstMv ∧
  (300, walkFirstRoad) ∈ walkFirstMv.roads ∧
  ∃ clid cl,
    walkFirstRoad.laneIds[walkFirstRoad.drivingLaneIds.length / 2]? = some clid ∧
    List.lookup clid walkFirstMv.lanes = some cl ∧
    walkFirstRoad.length = cl.length ∧ walkFirstRoad.maxSpeed = cl.maxSpeed ∧
    walkFirstRoad.shapelyXY = cl.shapelyXY ∧
    walkFirstRoad.shapelyLnglat = cl.shapelyLnglat ∧
    (walkFirstRoad.drivingLaneIds ≠ [] →
      walkFirstRoad.drivingLaneIds <+: walkFirstRoad.laneIds →
      walkFirstRoad.drivingLaneIds[walkFirstRoad.drivingLaneIds.length / 2]? = some clid) :=
  ⟨by decide, by decide,
   c1_center_lane_from_full_list idProj unitLen zeroCentroid walkFirstRecords
     walkFirstMv 300 walkFirstRoad (by decide)
     (by decide)⟩

/-- Driving lane 100: the segment (0,0)–(10,0), length 10. -/
def lane100 : Lane :=
  { id := 100, type := 1, turn := 1, maxSpeed := 10, length := 10,
    centerLine := [⟨0, 0⟩, ⟨10, 0⟩],
    shapelyXY := ⟨[⟨0, 0⟩, ⟨10, 0⟩], [10]⟩,
    shapelyLnglat := [⟨0, 0⟩, ⟨10, 0⟩] }

/-- Driving lane 200: the segment (10,0)–(20,0), length 10. -/
def lane200 : Lane :=
  { id := 200, type := 1, turn := 1, maxSpeed := 10, length := 10,
    centerLine := [⟨10, 0⟩, ⟨20, 0⟩],
    shapelyXY := ⟨[⟨10, 0⟩, ⟨20, 0⟩], [10]⟩,
    shapelyLnglat := [⟨10, 0⟩, ⟨20, 0⟩] }

/-- Road 10 over lane 100. -/
def road10 : Road :=
  { id := 10, laneIds := [100], drivingLaneIds := [100],
    length := 10, maxSpeed := 10,
    shapelyXY := lane100.shapelyXY, shapelyLnglat := lane100.shapelyLnglat }

/-- Road 20 over lane 200. -/
def road20 : Road :=
  { id := 20, laneIds := [200], drivingLaneIds := [200],
    length := 10, maxSpeed := 10,
    shapelyXY := lane200.shapelyXY, shapelyLnglat := lane200.shapelyLnglat }

/-- A two-road straight map for the route-export instance. -/
def twoRoadMap : MapV :=
  { header := ⟨"+proj=tmerc"⟩,
    lanes := [(100, lane100), (200, lane200)],
    roads := [(10, road10), (20, road20)],
    aois := [], pois := [], juncs := [] }

/-- Driving request from s = 5 on lane 100 to s = 3 on lane 200. -/
def twoRoadReq : GetRouteRequest :=
  { rtype := ROUTE_TYPE_DRIVING,
    startPos := .lanePosition 100 5, endPos := .lanePosition 200 3 }

/-- Routing result: one driving journey over roads [10, 20]. -/
def twoRoadRes : GetRouteResponse :=
  { journeys := [{ jtype := JOURNEY_TYPE_DRIVING, walkingRoute := [],
                   drivingRoadIds := [10, 20] }] }

/-- C2.  On a driving route with two road segments, `_route_to_xys`
emits only the first segment trimmed from the start s — the final
segment (road 20, which the claim says must appear trimmed from 0 to
the resolved end s, i.e. (10,0)–(13,0)) is missing entirely, because
both the single-segment test and the end-truncation test inspect
`len(journey.walking.route)`, which is 0 on a driving journey.
Evaluates the export at the failing input. -/
theorem c2_driving_final_segment_dropped :
  routeToXys twoRoadMap twoRoadReq twoRoadRes = .ok [⟨5, 0⟩, ⟨10, 0⟩] ∧
  exportRouteCoords twoRoadMap idProj twoRoadReq twoRoadRes = .ok [⟨5, 0⟩, ⟨10, 0⟩] ∧
  substringCoords road20.shapelyXY 0 3 = [⟨10, 0⟩, ⟨13, 0⟩] := by
  refine ⟨?_, ?_, ?_⟩ <;> decide

/-- A POI at (99/100, 99/100): inside the envelope of the radius-1
buffer around the origin, but at Euclidean distance sqrt(2) * 99/100
> 1 from it. -/
def cornerPoi : Poi :=
  { id := 700, name := "shop", category := "131300",
    position := ⟨99/100, 99/100⟩, aoiId := 500,
    shapelyXY := ⟨99/100, 99/100⟩, shapelyLnglat := ⟨99/100, 99/100⟩ }

/-- A one-POI map for the radius-filter instance. -/
def cornerPoiMap : MapV :=
  { header := ⟨"+proj=tmerc"⟩, lanes := [], roads := [],
    aois := [], pois := [(700, cornerPoi)], juncs := [] }

/-- C3.  `query_pois` returns an entity strictly farther than the
radius: at center (0,0) and radius 1, the POI at (0.99, 0.99) has
squared distance 9801/5000 > 1 = radius², yet it is returned — the
bounding-volume candidates are never filtered by exact distance in
`query_pois` (nor in `query_aois`; only `query_lane` performs the
`distance > radius` check).  Evaluates the query at the failing
input. -/
theorem c3_out_of_radius_poi_returned :
  queryPois cornerPoiMap ⟨0, 0⟩ 1 "13" none = [(cornerPoi, 9801/5000)] ∧
  ((1 : ℚ)) ^ 2 < 9801/5000 := by
  refine ⟨?_, ?_⟩ <;> decide

/-- `leBySnd` is transitive. -/
theorem leBySnd_trans {α : Type} (a b c : α × ℚ) (hab : leBySnd a b = true)
    (hbc : leBySnd b c = true) : leBySnd a c = true := by
  simp only [leBySnd, decide_eq_true_eq] at *
  exact le_trans hab hbc

/-- `leBySnd` is total. -/
theorem leBySnd_total {α : Type} (a b : α × ℚ) : (leBySnd a b || leBySnd b a) = true := by
  simp [leBySnd, le_total]

/-- `leByThird` is transitive. -/
theorem leByThird_trans {α β : Type} (a b c : α × β × ℚ) (hab : leByThird a b = true)
    (hbc : leByThird b c = true) : leByThird a c = true := by
  simp only [leByThird, decide_eq_true_eq] at *
  exact le_trans hab hbc

/-- `leByThird` is total. -/
theorem leByThird_total {α β : Type} (a b : α × β × ℚ) :
    (leByThird a b || leByThird b a) = true := by
  simp [leByThird, le_total]

/-- Membership through an insertion step. -/
theorem mem_insertSorted {α : Type} (le : α → α → Bool) (x : α) (l : List α) (y : α) :
    y ∈ insertSorted le x l ↔ y = x ∨ y ∈ l := by
  induction l with
  | nil => simp [insertSorted]
  | cons z zs ih =>
    by_cases h : le x z = true
    · simp only [insertSorted, h, if_true, List.mem_cons]
    · simp only [insertSorted, h, Bool.false_eq_true, if_false, List.mem_cons, ih]
      tauto

/-- Membership through the stable sort. -/
theorem mem_sortByKey {α : Type} (le : α → α → Bool) (l : List α) (y : α) :
    y ∈ sortByKey le l ↔ y ∈ l := by
  induction l with
  | nil => simp [sortByKey]
  | cons x xs ih =>
    simp [sortByKey, mem_insertSorted, ih]

/-- Inserting into a sorted list keeps it sorted (for a transitive,
total comparison). -/
theorem pairwise_insertSorted {α : Type} (le : α → α → Bool)
    (htrans : ∀ a b c : α, le a b = true → le b c = true → le a c = true)
    (htotal : ∀ a b : α, (le a b || le b a) = true) (x : α) (l : List α)
    (hl : List.Pairwise (fun a b => le a b = true) l) :
    List.Pairwise (fun a b => le a b = true) (insertSorted le x l) := by
  induction l with
  | nil => simp [insertSorted]
  | cons z zs ih =>
    rcases List.pairwise_cons.mp hl with ⟨hz, hzs⟩
    by_cases h : le x z = true
    · simp only [insertSorted, h, if_true]
      refine List.pairwise_cons.mpr ⟨?_, hl⟩
      intro w hw
      rcases List.mem_cons.mp hw with rfl | hw2
      · exact h
      · exact htrans x z w h (hz w hw2)
    · simp only [insertSorted, h, Bool.false_eq_true, if_false]
      refine List.pairwise_cons.mpr ⟨?_, ih hzs⟩
      intro w hw
      rcases (mem_insertSorted le x zs w).mp hw with hwx | hw2
      · rw [hwx]
        have := htotal x z
        simp [h] at this
        exact this
      · exact hz w hw2

/-- The stable sort sorts (for a transitive, total comparison). -/
theorem pairwise_sortByKey {α : Type} (le : α → α → Bool)
    (htrans : ∀ a b c : α, le a b = true → le b c = true → le a c = true)
    (htotal : ∀ a b : α, (le a b || le b a) = true) (l : List α) :
    List.Pairwise (fun a b => le a b = true) (sortByKey le l) := by
  induction l with
  | nil => simp [sortByKey]
  | cons x xs ih => exact pairwise_insertSorted le htrans htotal x _ ih

/-- The distance sort of the POI query leaves a list non-decreasing
in the second component. -/
theorem sortByKey_leBySnd_pairwise {α : Type} (l : List (α × ℚ)) :
    List.Pairwise (fun a b => a.2 ≤ b.2) (sortByKey leBySnd l) :=
  (pairwise_sortByKey leBySnd leBySnd_trans leBySnd_total l).imp
    (fun h => by simpa [leBySnd] using h)

/-- The distance sort of the lane query leaves a list non-decreasing
in the third component. -/
theorem sortByKey_leByThird_pairwise {α β : Type} (l : List (α × β × ℚ)) :
    List.Pairwise (fun a b => a.2.2 ≤ b.2.2) (sortByKey leByThird l) :=
  (pairwise_sortByKey leByThird leByThird_trans leByThird_total l).imp
    (fun h => by simpa [leByThird] using h)

/-- C5.  Radius-query results are sorted non-decreasing in the
returned distance (for `query_pois`, `query_aois` and both lane types
of `query_lane`), and the optional result cap of `query_pois` /
`query_aois` is a pure truncation applied after sorting: the capped
result is exactly the first `min(n, length)` elements of the uncapped
one (`query_lane` takes no cap).  Distances are represented squared,
which preserves both the comparison order and the sort. -/
theorem c5_sorted_and_limit_truncation (m : MapV) (center xy : Pt) (radius : ℚ)
    (pfx : String) (uses : Option (List String)) (n : Nat) :
    List.Pairwise (fun a b => a.2 ≤ b.2) (queryPois m center radius pfx none) ∧
    List.Pairwise (fun a b => a.2 ≤ b.2) (queryAois m center radius uses none) ∧
    (∀ laneType res, queryLane m xy radius laneType = .ok res →
      List.Pairwise (fun a b => a.2.2 ≤ b.2.2) res) ∧
    queryPois m center radius pfx (some n) =
      (queryPois m center radius pfx none).take n ∧
    queryAois m center radius uses (some n) =
      (queryAois m center radius uses none).take n := by
  refine ⟨?_, ?_, ?_, rfl, rfl⟩
  · exact sortByKey_leBySnd_pairwise _
  · exact sortByKey_leBySnd_pairwise _
  · intro laneType res h
    unfold queryLane at h
    split at h
    · cases h
      exact sortByKey_leByThird_pairwise _
    · split at h
      · cases h
        exact sortByKey_leByThird_pairwise _
      · exact Except.noConfusion h

theorem c5_witness :
  List.Pairwise (fun (a b : Poi × ℚ) => a.2 ≤ b.2) (queryPois cornerPoiMap ⟨0, 0⟩ 1 "13" none) ∧
  List.Pairwise (fun (a b : Aoi × ℚ) => a.2 ≤ b.2) (queryAois cornerPoiMap ⟨0, 0⟩ 1 none none) ∧
  (∀ laneType res, queryLane cornerPoiMap ⟨0, 0⟩ 1 laneType = .ok res →
    List.Pairwise (fun a b => a.2.2 ≤ b.2.2) res) ∧
  queryPois cornerPoiMap ⟨0, 0⟩ 1 "13" (some 1) =
    (queryPois cornerPoiMap ⟨0, 0⟩ 1 "13" none).take 1 ∧
  queryAois cornerPoiMap ⟨0, 0⟩ 1 none (some 1) =
    (queryAois cornerPoiMap ⟨0, 0⟩ 1 none none).take 1 :=
  c5_sorted_and_limit_truncation cornerPoiMap ⟨0, 0⟩ ⟨0, 0⟩ 1 "13" none 1

/-- C7.  Every ID lookup called with an id absent from its mapping
returns the explicit absent signal (`None`) and raises nothing,
whatever the `include_unused` flag. -/
theorem c7_lookup_miss_returns_none (aois pois lanes roads juncs : List (Int × Doc))
    (id : Int) (includeUnused : Bool)
    (ha : List.lookup id aois = none) (hp : List.lookup id pois = none)
    (hl : List.lookup id lanes = none) (hr : List.lookup id roads = none)
    (hj : List.lookup id juncs = none) :
    getAoi aois id includeUnused = .ok none ∧
    getPoi pois id includeUnused = .ok none ∧
    getLane lanes id includeUnused = .ok none ∧
    getRoad roads id includeUnused = .ok none ∧
    getJunction juncs id includeUnused = .ok none := by
  refine ⟨?_, ?_, ?_, ?_, ?_⟩
  · unfold getAoi; rw [ha]
  · unfold getPoi; rw [hp]
  · unfold getLane; rw [hl]
  · unfold getRoad; rw [hr]
  · unfold getJunction; rw [hj]

theorem c7_witness :
  getAoi [] 42 false = .ok none ∧ getPoi [] 42 false = .ok none ∧
  getLane [] 42 false = .ok none ∧ getRoad [] 42 false = .ok none ∧
  getJunction [] 42 false = .ok none :=
  c7_lookup_miss_returns_none [] [] [] [] [] 42 false (by decide) (by decide)
    (by decide) (by decide) (by decide)

/-- C8.  Resolving the arc-length s of a route start/end: an AOI
position succeeds — returning the recorded access point's s — exactly
when the AOI's combined walking + driving access-point lists hold
exactly one entry for the lane; zero or several matches fail with the
distinguishable assertion error (`assert len(ss) == 1`); a lane
position returns its own s and never fails this check. -/
theorem c8_access_point_resolution (m : MapV) (aoiId laneId : Int) (aoi : Aoi)
    (hlk : List.lookup aoiId m.aois = some aoi) :
    (∀ s : ℚ, getLaneS m (.aoiPosition aoiId) laneId = .ok s ↔
      ((aoi.walkingPositions ++ aoi.drivingPositions).filter
        (fun p => p.laneId == laneId)).map (·.s) = [s]) ∧
    ((((aoi.walkingPositions ++ aoi.drivingPositions).filter
        (fun p => p.laneId == laneId)).map (·.s)).length ≠ 1 →
      getLaneS m (.aoiPosition aoiId) laneId = .error .assertionError) ∧
    (∀ (lid : Int) (s : ℚ), getLaneS m (.lanePosition lid s) laneId = .ok s) := by
  have hbody : getLaneS m (.aoiPosition aoiId) laneId =
      (match ((aoi.walkingPositions ++ aoi.drivingPositions).filter
          (fun p => p.laneId == laneId)).map (·.s) with
        | [s] => .ok s
        | _ => .error .assertionError) := by
    simp only [getLaneS]
    rw [hlk]
  refine ⟨?_, ?_, fun lid s => rfl⟩
  · intro s
    rw [hbody]
    generalize ((aoi.walkingPositions ++ aoi.drivingPositions).filter
        (fun p => p.laneId == laneId)).map (·.s) = ss
    match ss with
    | [] => simp
    | [s0] => simp [eq_comm]
    | s0 :: s1 :: rest => simp
  · intro hlen
    rw [hbody]
    revert hlen
    generalize ((aoi.walkingPositions ++ aoi.drivingPositions).filter
        (fun p => p.laneId == laneId)).map (·.s) = ss
    intro hlen
    match ss with
    | [] => rfl
    | [s0] => exact absurd rfl hlen
    | s0 :: s1 :: rest => rfl

/-- AOI 500 with a single walking access point on lane 100 at s = 5. -/
def gateAoi : Aoi :=
  { id := 500, positions := [⟨0, 0⟩], area := none,
    walkingPositions := [⟨100, 5⟩], drivingPositions := [],
    urbanLandUse := "B1", shapelyXY := .point ⟨0, 0⟩,
    shapelyLnglat := .point ⟨0, 0⟩ }

/-- A one-AOI map for the C8 witness. -/
def gateAoiMap : MapV :=
  { header := ⟨"+proj=tmerc"⟩, lanes := [], roads := [],
    aois := [(500, gateAoi)], pois := [], juncs := [] }

theorem c8_access_point_witness :
  (∀ s : ℚ, getLaneS gateAoiMap (.aoiPosition 500) 100 = .ok s ↔
    ((gateAoi.walkingPositions ++ gateAoi.drivingPositions).filter
      (fun p => p.laneId == 100)).map (·.s) = [s]) ∧
  ((((gateAoi.walkingPositions ++ gateAoi.drivingPositions).filter
      (fun p => p.laneId == 100)).map (·.s)).length ≠ 1 →
    getLaneS gateAoiMap (.aoiPosition 500) 100 = .error .assertionError) ∧
  (∀ (lid : Int) (s : ℚ), getLaneS gateAoiMap (.lanePosition lid s) 100 = .ok s) :=
  c8_access_point_resolution gateAoiMap 500 100 gateAoi (by decide)

/-- Deleting one key leaves the lookup of a different key unchanged. -/
theorem findKey_eraseKey_ne : ∀ (fs : Fields) (k kDel : String), k ≠ kDel →
    (fs.eraseKey kDel).findKey k = fs.findKey k
  | .fnil, _, _, _ => rfl
  | .fcons k0 v rest, k, kDel, h => by
    have ih := findKey_eraseKey_ne rest k kDel h
    by_cases h0 : k0 = kDel
    · subst h0
      have hk : (k0 == k) = false := by
        simp only [beq_eq_false_iff_ne]
        exact fun hEq => h hEq.symm
      simp [Fields.eraseKey, Fields.findKey, hk, ih]
    · have h0b : (k0 == kDel) = false := by simpa using h0
      by_cases hk : k0 = k
      · subst hk
        simp [Fields.eraseKey, Fields.findKey, h0b]
      · have hkb : (k0 == k) = false := by simpa using hk
        simp [Fields.eraseKey, Fields.findKey, h0b, hkb, ih]

/-- C10.  For a present AOI id, `get_aoi` with the default
`include_unused=False` succeeds exactly when the stored record has a
`"type"` key — the unconditional `del doc["type"]` raises `KeyError`
otherwise — while `include_unused=True` always succeeds and returns
the record unchanged.  (The stored record is a dict whose `external`
entry, when present, is itself a dict — true of the loader's
output.) -/
theorem c10_get_aoi_requires_type_key (aois : List (Int × Doc)) (id : Int) (fs : Fields)
    (hlk : List.lookup id aois = some (.node fs))
    (hext : ∀ e, fs.findKey "external" = some e → ∃ efs, e = Doc.node efs) :
    ((∃ out, getAoi aois id false = .ok (some out)) ↔ fs.hasKey "type" = true) ∧
    (fs.hasKey "type" = false → getAoi aois id false = .error .keyError) ∧
    getAoi aois id true = .ok (some (.node fs)) := by
  have h3 : getAoi aois id true = .ok (some (.node fs)) := by
    unfold getAoi
    rw [hlk]
    rfl
  cases htype : fs.hasKey "type" with
  | false =>
    have hfail : getAoi aois id false = .error .keyError := by
      unfold getAoi
      rw [hlk]
      simp [pyDelKey, htype]
    refine ⟨?_, fun _ => hfail, h3⟩
    rw [hfail]
    simp
  | true =>
    have hdel : pyDelKey (.node fs) "type" = .ok (.node (fs.eraseKey "type")) := by
      simp [pyDelKey, htype]
    have hfind : (fs.eraseKey "type").findKey "external" = fs.findKey "external" :=
      findKey_eraseKey_ne fs "external" "type" (by decide)
    have hsucc : ∃ out, getAoi aois id false = .ok (some out) := by
      unfold getAoi
      rw [hlk]
      simp only [Bool.false_eq_true, if_false, hdel, hfind]
      cases hx : fs.findKey "external" with
      | none => exact ⟨_, rfl⟩
      | some e =>
        rcases hext e hx with ⟨efs, rfl⟩
        exact ⟨_, rfl⟩
    exact ⟨⟨fun _ => rfl, fun _ => hsucc⟩, fun hf => Bool.noConfusion hf, h3⟩

/-- A stored AOI record with a `"type"` key and a dict `external`
entry. -/
def typedAoiDoc : Fields :=
  .fcons "type" (.leaf 0)
    (.fcons "external" (.node (.fcons "driving_distances" (.leaf 1) .fnil)) .fnil)

theorem c10_get_aoi_witness :
  ((∃ out, getAoi [(500, .node typedAoiDoc)] 500 false = .ok (some out)) ↔
    typedAoiDoc.hasKey "type" = true) ∧
  (typedAoiDoc.hasKey "type" = false →
    getAoi [(500, .node typedAoiDoc)] 500 false = .error .keyError) ∧
  getAoi [(500, .node typedAoiDoc)] 500 true = .ok (some (.node typedAoiDoc)) :=
  c10_get_aoi_requires_type_key [(500, .node typedAoiDoc)] 500 typedAoiDoc
    (by decide)
    (fun e he => ⟨.fcons "driving_distances" (.leaf 1) .fnil, by
      rw [(by decide :
        typedAoiDoc.findKey "external" =
          some (.node (.fcons "driving_distances" (.leaf 1) .fnil)))] at he
      cases he
      rfl⟩)

/-- A stored AOI record without a `"type"` key. -/
def untypedAoiDoc : Fields := .fcons "area" (.leaf 3) .fnil

/-- C6 counterexample.  The AOI lookup of a PRESENT id does not
return a copy at all when the stored record lacks a `"type"` key: the
default-flag `del doc["type"]` raises `KeyError`, refuting the claim
as stated for `get_aoi`. -/
theorem c6_counterexample_get_aoi_raises :
  getAoi [(500, .node untypedAoiDoc)] 500 false = .error .keyError := by
  decide

/-- Members of a truncated sort come from the original list. -/
theorem mem_of_mem_sortByKey_take {α : Type} (le : α → α → Bool) (l : List α)
    (lim : Option Nat) (x : α)
    (hx : x ∈ (match lim with
                | some n => (sortByKey le l).take n
                | none => sortByKey le l)) : x ∈ l := by
  have hx2 : x ∈ sortByKey le l := by
    cases lim with
    | none => exact hx
    | some n => exact List.take_subset n _ hx
  exact (mem_sortByKey le l x).mp hx2

/-- Every tuple `query_pois` returns carries an element of the
backing `_poi_list`. -/
theorem queryPoisG_mem {π : Type} (lst : List π) (cat : π → String) (pos : π → Pt)
    (c : Pt) (r : ℚ) (pfx : String) (lim : Option Nat) (x : π × ℚ)
    (hx : x ∈ queryPoisG lst cat pos c r pfx lim) : x.1 ∈ lst := by
  unfold queryPoisG at hx
  have hx2 := mem_of_mem_sortByKey_take _ _ _ _ hx
  rcases List.mem_filterMap.mp hx2 with ⟨a, ha, hfa⟩
  have haf : x.1 = a := by
    split at hfa
    · cases hfa
      rfl
    · exact Option.noConfusion hfa
  rw [haf]
  exact List.mem_of_mem_filter ha

/-- Every tuple `query_aois` returns carries an element of the
backing `_aoi_list`. -/
theorem queryAoisG_mem {α : Type} (lst : List α) (lu : α → String) (geo : α → Geom)
    (c : Pt) (r : ℚ) (uses : Option (List String)) (lim : Option Nat) (x : α × ℚ)
    (hx : x ∈ queryAoisG lst lu geo c r uses lim) : x.1 ∈ lst := by
  unfold queryAoisG at hx
  have hx2 := mem_of_mem_sortByKey_take _ _ _ _ hx
  rcases List.mem_filterMap.mp hx2 with ⟨a, ha, hfa⟩
  have haf : x.1 = a := by
    split at hfa
    · split at hfa
      · cases hfa
        rfl
      · exact Option.noConfusion hfa
    · cases hfa
      rfl
  rw [haf]
  exact List.mem_of_mem_filter ha

/-- Every tuple the lane-query loop returns carries an element of the
backing lane list. -/
theorem queryLaneListG_mem {l : Type} (lst : List l) (geo : l → PLine) (xy : Pt)
    (r : ℚ) (x : l × ℚ × ℚ) (hx : x ∈ queryLaneListG lst geo xy r) : x.1 ∈ lst := by
  unfold queryLaneListG at hx
  have hx2 := (mem_sortByKey leByThird _ x).mp hx
  rcases List.mem_filterMap.mp hx2 with ⟨a, ha, hfa⟩
  have haf : x.1 = a := by
    simp only [] at hfa
    split at hfa
    · exact Option.noConfusion hfa
    · cases hfa
      rfl
  rw [haf]
  exact List.mem_of_mem_filter ha

/-- C9.  The radius queries hand out the engine's stored records
themselves: every returned tuple's entity is literally a member of
the engine's poi / aoi / lane list (the very records, with their heap
addresses, that `_build_geo_index` put into the spatial-index backing
lists) — no copy is taken, so a caller mutating a returned record
mutates the cell at a stored address, unlike the fresh copies the ID
lookups return. -/
theorem c9_queries_return_stored_records (e : HEngine) (center xy : Pt) (radius : ℚ)
    (pfx : String) (uses : Option (List String)) (lim : Option Nat) :
    (∀ x ∈ hQueryPois e center radius pfx lim, x.1 ∈ e.pois) ∧
    (∀ x ∈ hQueryAois e center radius uses lim, x.1 ∈ e.aois) ∧
    (∀ laneType res, hQueryLane e xy radius laneType = .ok res →
      ∀ x ∈ res, x.1 ∈ e.lanes) := by
  refine ⟨?_, ?_, ?_⟩
  · intro x hx
    exact queryPoisG_mem _ _ _ _ _ _ _ _ hx
  · intro x hx
    exact queryAoisG_mem _ _ _ _ _ _ _ _ hx
  · intro laneType res h x hx
    unfold hQueryLane at h
    split at h
    · cases h
      exact List.mem_of_mem_filter (queryLaneListG_mem _ _ _ _ _ hx)
    · split at h
      · cases h
        exact List.mem_of_mem_filter (queryLaneListG_mem _ _ _ _ _ hx)
      · exact Except.noConfusion h

/-- A one-POI engine: the stored record at heap address 0. -/
def onePoiEngine : HEngine :=
  { heap := [.hnode []], pois := [⟨0, cornerPoi⟩], aois := [], lanes := [] }

theorem c9_witness :
  (⟨0, cornerPoi⟩ : HPoi) ∈
    (hQueryPois onePoiEngine ⟨0, 0⟩ 2 "13" none).map (·.1) ∧
  (∀ x ∈ hQueryPois onePoiEngine ⟨0, 0⟩ 2 "13" none, x.1 ∈ onePoiEngine.pois) :=
  ⟨by decide,
   (c9_queries_return_stored_records onePoiEngine ⟨0, 0⟩ ⟨0, 0⟩ 2 "13" none none).1⟩

/-!  Heap lemmas for the deep-copy claim. -/

theorem cell_append_lt (h t : Heap) (a : Nat) (ha : a < h.size) :
    (h ++ t).cell a = h.cell a := by
  unfold Heap.cell
  rw [List.getElem?_append]
  simp [Heap.size] at ha
  simp [ha]

theorem cell_append_single (h : Heap) (o : HObj) (a : Nat) :
    (h ++ [o]).cell a =
      if a < h.size then h.cell a
      else if a = h.size then some o else none := by
  by_cases ha : a < h.size
  · simp [ha, cell_append_lt]
  · by_cases he : a = h.size
    · subst he
      simp [Heap.cell, Heap.size, List.getElem?_concat_length]
    · have hgt : h.size + 1 ≤ a := by
        simp [Heap.size] at ha he ⊢
        omega
      simp only [ha, he, if_false]
      unfold Heap.cell
      refine List.getElem?_eq_none ?_
      simp [Heap.size] at hgt ⊢
      omega

theorem cell_lt_size (h : Heap) (a : Nat) (o : HObj) (hc : h.cell a = some o) :
    a < h.size := by
  by_contra hge
  unfold Heap.cell at hc
  rw [List.getElem?_eq_none (by simpa [Heap.size] using Nat.le_of_not_lt hge)] at hc
  exact Option.noConfusion hc

theorem cell_put_ne (h : Heap) (a b : Nat) (o : HObj) (hne : a ≠ b) :
    (h.put a o).cell b = h.cell b := by
  unfold Heap.cell Heap.put
  exact List.getElem?_set_ne hne

theorem cell_put_self (h : Heap) (a : Nat) (o : HObj) (ha : a < h.size) :
    (h.put a o).cell a = some o := by
  unfold Heap.cell Heap.put
  exact List.getElem?_set_self (by simpa [Heap.size] using ha)

theorem put_size (h : Heap) (a : Nat) (o : HObj) : (h.put a o).size = h.size := by
  simp [Heap.put, Heap.size]

theorem append_size (h t : Heap) : (h ++ t).size = h.size + t.size := by
  simp [Heap.size]

/-- Cells of an extension agree with the base heap below its size. -/
theorem cells_of_extension (h : Heap) (t : Heap) :
    ∀ i, i < h.size → (h ++ t).cell i = h.cell i :=
  fun i hi => cell_append_lt h t i hi

mutual
/-- `storeDoc` extends the heap, allocates its root among the fresh
cells, and preserves heap well-formedness. -/
theorem storeDoc_grow (d : Doc) (h : Heap) :
    (∃ t, (storeDoc h d).1 = h ++ t) ∧
    h.size ≤ (storeDoc h d).2 ∧ (storeDoc h d).2 < (storeDoc h d).1.size ∧
    (WFHeap h → WFHeap (storeDoc h d).1) := by
  cases d with
  | leaf v =>
    refine ⟨⟨[.hleaf v], rfl⟩, le_refl _, ?_, ?_⟩
    · simp [storeDoc, append_size, Heap.size]
    · intro hwf a fs hc kv hkv
      simp only [storeDoc] at hc
      rw [cell_append_single] at hc
      by_cases ha : a < h.size
      · rw [if_pos ha] at hc
        exact hwf a fs hc kv hkv
      · rw [if_neg ha] at hc
        by_cases he : a = h.size
        · rw [if_pos he] at hc
          exact HObj.noConfusion (Option.some.inj hc)
        · rw [if_neg he] at hc
          exact Option.noConfusion hc
  | node fs =>
    have ih := storeFields_grow fs h
    rcases ih with ⟨⟨t1, ht1⟩, hbnd, hwfp⟩
    refine ⟨⟨t1 ++ [.hnode (storeFields h fs).2], by simp [storeDoc, ht1]⟩, ?_, ?_, ?_⟩
    · simp only [storeDoc]
      calc h.size ≤ (h ++ t1).size := by simp [append_size]
        _ = (storeFields h fs).1.size := by rw [ht1]
    · simp [storeDoc, append_size, Heap.size]
    · intro hwf
      intro a afs hc kv hkv
      simp only [storeDoc] at hc
      rw [cell_append_single] at hc
      by_cases ha : a < (storeFields h fs).1.size
      · rw [if_pos ha] at hc
        exact hwfp hwf a afs hc kv hkv
      · rw [if_neg ha] at hc
        by_cases he : a = (storeFields h fs).1.size
        · rw [if_pos he] at hc
          cases Option.some.inj hc
          subst he
          exact (hbnd kv hkv).2
        · rw [if_neg he] at hc
          exact Option.noConfusion hc

/-- `storeFields` extends the heap, allocates every field root among
the fresh cells, and preserves heap well-formedness. -/
theorem storeFields_grow (fs : Fields) (h : Heap) :
    (∃ t, (storeFields h fs).1 = h ++ t) ∧
    (∀ kv ∈ (storeFields h fs).2, h.size ≤ kv.2 ∧ kv.2 < (storeFields h fs).1.size) ∧
    (WFHeap h → WFHeap (storeFields h fs).1) := by
  cases fs with
  | fnil =>
    refine ⟨⟨[], by simp [storeFields]⟩, ?_, fun hwf => hwf⟩
    intro kv hkv
    simp [storeFields] at hkv
  | fcons k v rest =>
    have ih1 := storeDoc_grow v h
    have ih2 := storeFields_grow rest (storeDoc h v).1
    rcases ih1 with ⟨⟨t1, ht1⟩, hroot1, hroot2, hwf1⟩
    rcases ih2 with ⟨⟨t2, ht2⟩, hbnd2, hwf2⟩
    have hsz1 : h.size ≤ (storeDoc h v).1.size := by
      rw [ht1, append_size]
      omega
    have hsz2 : (storeDoc h v).1.size ≤ (storeFields (storeDoc h v).1 rest).1.size := by
      rw [ht2, append_size]
      omega
    refine ⟨⟨t1 ++ t2, by simp only [storeFields]; rw [ht2, ht1, List.append_assoc]⟩, ?_,
      fun hwf => hwf2 (hwf1 hwf)⟩
    intro kv hkv
    simp only [storeFields, List.mem_cons] at hkv
    rcases hkv with rfl | hkv
    · exact ⟨hroot1, lt_of_lt_of_le hroot2 hsz2⟩
    · rcases hbnd2 kv hkv with ⟨hb1, hb2⟩
      exact ⟨le_trans hsz1 hb1, hb2⟩
end

mutual
/-- On a well-formed heap, reading below n only inspects cells below
n: any heap agreeing there reads the same tree. -/
theorem readDoc_congr (fuel : Nat) (h h2 : Heap) (a n : Nat) (hwf : WFHeap h)
    (ha : a < n) (hag : ∀ i, i < n → h2.cell i = h.cell i) :
    readDoc fuel h2 a = readDoc fuel h a := by
  cases fuel with
  | zero => simp [readDoc]
  | succ f =>
    simp only [readDoc]
    rw [hag a ha]
    cases hc : h.cell a with
    | none => rfl
    | some o =>
      cases o with
      | hleaf v => rfl
      | hnode fs =>
        have hrefs : ∀ kv ∈ fs, kv.2 < n :=
          fun kv hkv => lt_trans (hwf a fs hc kv hkv) ha
        simp only [readFields_congr f h h2 fs n hwf hrefs hag]
  termination_by (fuel, 0)

/-- Fields version of `readDoc_congr`. -/
theorem readFields_congr (fuel : Nat) (h h2 : Heap) (fs : List (String × Nat)) (n : Nat)
    (hwf : WFHeap h) (hrefs : ∀ kv ∈ fs, kv.2 < n)
    (hag : ∀ i, i < n → h2.cell i = h.cell i) :
    readFields fuel h2 fs = readFields fuel h fs := by
  cases fs with
  | nil => simp [readFields]
  | cons kv rest =>
    cases kv with
    | mk k a2 =>
      simp only [readFields]
      rw [readDoc_congr fuel h h2 a2 n hwf (hrefs (k, a2) (List.mem_cons_self _ _)) hag,
          readFields_congr fuel h h2 rest n hwf
            (fun kv2 hkv2 => hrefs kv2 (List.mem_cons_of_mem _ hkv2)) hag]
  termination_by (fuel, fs.length + 1)
end

mutual
/-- A successful read needs at least the height of the tree in fuel. -/
theorem readDoc_height (fuel : Nat) (h : Heap) (a : Nat) (d : Doc)
    (hr : readDoc fuel h a = some d) : d.height ≤ fuel := by
  cases fuel with
  | zero => simp [readDoc] at hr
  | succ f =>
    simp only [readDoc] at hr
    split at hr
    · cases hr
      simp [Doc.height]
    · next fs heq =>
      cases hrf : readFields f h fs with
      | none => rw [hrf] at hr; exact Option.noConfusion hr
      | some fields =>
        rw [hrf] at hr
        cases hr
        have := readFields_height f h fs fields hrf
        simp only [Doc.height]
        omega
    · exact Option.noConfusion hr
  termination_by (fuel, 0)

/-- Fields version of `readDoc_height`. -/
theorem readFields_height (fuel : Nat) (h : Heap) (fs : List (String × Nat))
    (out : Fields) (hr : readFields fuel h fs = some out) : out.height ≤ fuel := by
  cases fs with
  | nil =>
    simp only [readFields] at hr
    cases hr
    simp [Fields.height]
  | cons kv rest =>
    cases kv with
    | mk k a2 =>
      simp only [readFields] at hr
      split at hr
      · next v fsr hd hrf =>
        cases hr
        have h1 := readDoc_height fuel h a2 v hd
        have h2 := readFields_height fuel h rest fsr hrf
        simp only [Fields.height]
        omega
      · exact Option.noConfusion hr
  termination_by (fuel, fs.length + 1)
end

mutual
/-- Reading a freshly stored tree back yields the tree (with fuel at
least its height). -/
theorem storeDoc_read (d : Doc) (h : Heap) (fuel : Nat) (hwf : WFHeap h)
    (hfuel : d.height ≤ fuel) :
    readDoc fuel (storeDoc h d).1 (storeDoc h d).2 = some d := by
  cases d with
  | leaf v =>
    cases fuel with
    | zero => simp [Doc.height] at hfuel
    | succ f =>
      simp only [storeDoc, readDoc, cell_append_single]
      simp
  | node fs =>
    cases fuel with
    | zero => simp [Doc.height] at hfuel
    | succ f =>
      have hgrow := storeFields_grow fs h
      rcases hgrow with ⟨⟨t1, ht1⟩, hbnd, hwfp⟩
      have hfs : f ≥ fs.height := by
        simp only [Doc.height] at hfuel
        omega
      have hread1 : readFields f (storeFields h fs).1 (storeFields h fs).2 = some fs :=
        storeFields_read fs h f hwf hfs
      have hcell : Heap.cell ((storeFields h fs).1 ++ [HObj.hnode (storeFields h fs).2])
          (storeFields h fs).1.size = some (HObj.hnode (storeFields h fs).2) := by
        rw [cell_append_single]
        simp
      simp only [storeDoc, readDoc, hcell]
      rw [readFields_congr f (storeFields h fs).1
            ((storeFields h fs).1 ++ [HObj.hnode (storeFields h fs).2])
            (storeFields h fs).2 (storeFields h fs).1.size (hwfp hwf)
            (fun kv hkv => (hbnd kv hkv).2)
            (cells_of_extension _ _)]
      simp [hread1]
  termination_by sizeOf d

/-- Fields version of `storeDoc_read`. -/
theorem storeFields_read (fs : Fields) (h : Heap) (fuel : Nat) (hwf : WFHeap h)
    (hfuel : fs.height ≤ fuel) :
    readFields fuel (storeFields h fs).1 (storeFields h fs).2 = some fs := by
  cases fs with
  | fnil => simp [storeFields, readFields]
  | fcons k v rest =>
    have hfv : v.height ≤ fuel := by
      simp only [Fields.height] at hfuel
      omega
    have hfr : rest.height ≤ fuel := by
      simp only [Fields.height] at hfuel
      omega
    have hg1 := storeDoc_grow v h
    rcases hg1 with ⟨⟨t1, ht1⟩, hr1, hr2, hwf1⟩
    have hg2 := storeFields_grow rest (storeDoc h v).1
    rcases hg2 with ⟨⟨t2, ht2⟩, hbnd2, hwf2⟩
    have hv : readDoc fuel (storeDoc h v).1 (storeDoc h v).2 = some v :=
      storeDoc_read v h fuel hwf hfv
    have hvlift : readDoc fuel (storeFields (storeDoc h v).1 rest).1 (storeDoc h v).2 =
        some v := by
      rw [ht2]
      rw [readDoc_congr fuel (storeDoc h v).1 ((storeDoc h v).1 ++ t2) (storeDoc h v).2
            (storeDoc h v).1.size (hwf1 hwf) hr2 (cells_of_extension _ _)]
      exact hv
    have hrest : readFields fuel (storeFields (storeDoc h v).1 rest).1
        (storeFields (storeDoc h v).1 rest).2 = some rest :=
      storeFields_read rest (storeDoc h v).1 fuel (hwf1 hwf) hfr
    simp only [storeFields, readFields]
    rw [hvlift, hrest]
  termination_by sizeOf fs
end

/-- Dropping a key's entry from stored fields reads back as
`eraseKey` of the read fields. -/
theorem readFields_filter_key (fuel : Nat) (h : Heap) (k : String) :
    ∀ (afs : List (String × Nat)) (fs : Fields), readFields fuel h afs = some fs →
      readFields fuel h (afs.filter (fun kv => kv.1 ≠ k)) = some (fs.eraseKey k) := by
  intro afs
  induction afs with
  | nil =>
    intro fs hr
    simp only [readFields] at hr
    cases hr
    simp [readFields, Fields.eraseKey]
  | cons kv rest ih =>
    intro fs hr
    cases kv with
    | mk k0 a2 =>
      simp only [readFields] at hr
      cases hd : readDoc fuel h a2 with
      | none => rw [hd] at hr; exact Option.noConfusion hr
      | some v =>
        rw [hd] at hr
        cases hrf : readFields fuel h rest with
        | none => rw [hrf] at hr; exact Option.noConfusion hr
        | some fsr =>
          rw [hrf] at hr
          cases hr
          by_cases hk : k0 = k
          · subst hk
            have : (fun kv : String × Nat => decide ¬kv.1 = k0) (k0, a2) = false := by
              simp
            rw [List.filter_cons_of_neg (by simpa using this)]
            have : Fields.eraseKey (.fcons k0 v fsr) k0 = fsr.eraseKey k0 := by
              simp [Fields.eraseKey]
            rw [this]
            exact ih fsr hrf
          · rw [List.filter_cons_of_pos (by simpa using hk)]
            simp only [readFields]
            rw [hd, ih fsr hrf]
            have : Fields.eraseKey (.fcons k0 v fsr) k = .fcons k0 v (fsr.eraseKey k) := by
              simp [Fields.eraseKey, hk]
            rw [this]

/-- One guarded key deletion on the root cell of a stored dict:
well-formedness, size and the other cells are untouched, and the root
reads back with the key erased. -/
theorem hDel_spec (h : Heap) (a : Nat) (k : String) (fs : Fields) (fuel : Nat)
    (hwf : WFHeap h) (hrd : readDoc fuel h a = some (.node fs)) :
    WFHeap (hDelKeyIfPresent h a k) ∧
    (hDelKeyIfPresent h a k).size = h.size ∧
    (∀ i, i ≠ a → (hDelKeyIfPresent h a k).cell i = h.cell i) ∧
    readDoc fuel (hDelKeyIfPresent h a k) a = some (.node (fs.eraseKey k)) := by
  cases fuel with
  | zero => simp [readDoc] at hrd
  | succ f =>
    simp only [readDoc] at hrd
    split at hrd
    · exact Doc.noConfusion (Option.some.inj hrd)
    · next afs hc =>
      cases hrf : readFields f h afs with
      | none => rw [hrf] at hrd; exact Option.noConfusion hrd
      | some fs0 =>
          rw [hrf] at hrd
          cases hrd
          have hlt : a < h.size := cell_lt_size h a _ hc
          have hrefs : ∀ kv ∈ afs, kv.2 < a := fun kv hkv => hwf a afs hc kv hkv
          have hdel : hDelKeyIfPresent h a k =
              h.put a (.hnode (afs.filter (fun kv => kv.1 ≠ k))) := by
            unfold hDelKeyIfPresent
            rw [hc]
          have hcellne : ∀ i, i ≠ a → (hDelKeyIfPresent h a k).cell i = h.cell i := by
            intro i hi
            rw [hdel]
            exact cell_put_ne h a i _ (fun hEq => hi hEq.symm)
          have hwf2 : WFHeap (hDelKeyIfPresent h a k) := by
            intro b gs hcb kv hkv
            by_cases hb : b = a
            · subst hb
              rw [hdel, cell_put_self h b _ hlt] at hcb
              cases Option.some.inj hcb
              exact hrefs kv (List.mem_filter.mp hkv).1
            · rw [hcellne b hb] at hcb
              exact hwf b gs hcb kv hkv
          refine ⟨hwf2, by rw [hdel, put_size], hcellne, ?_⟩
          have hag : ∀ i, i < a → (h.put a (.hnode (afs.filter (fun kv => kv.1 ≠ k)))).cell i
              = h.cell i :=
            fun i hi => cell_put_ne h a i _ (by omega)
          have hrefs2 : ∀ kv ∈ afs.filter (fun kv => kv.1 ≠ k), kv.2 < a :=
            fun kv hkv => hrefs kv (List.mem_filter.mp hkv).1
          simp only [readDoc, hdel, cell_put_self h a _ hlt]
          rw [readFields_congr f h (h.put a (.hnode (afs.filter (fun kv => kv.1 ≠ k))))
                (afs.filter (fun kv => kv.1 ≠ k)) a hwf hrefs2 hag]
          have hfk := readFields_filter_key f h k afs fs hrf
          simpa using hfk
    · exact Option.noConfusion hrd

/-- A successful read starts at an allocated cell. -/
theorem readDoc_lt_size (fuel : Nat) (h : Heap) (a : Nat) (d : Doc)
    (hr : readDoc fuel h a = some d) : a < h.size := by
  cases fuel with
  | zero => simp [readDoc] at hr
  | succ f =>
    simp only [readDoc] at hr
    cases hc : h.cell a with
    | none => rw [hc] at hr; exact Option.noConfusion hr
    | some o => exact cell_lt_size h a o hc

/-- Folding the guarded deletions of a key list over the root cell:
well-formedness, size and the other cells are untouched, and the root
reads back with all the keys erased. -/
theorem stripFold_spec (keys : List String) :
    ∀ (h : Heap) (a : Nat) (fs : Fields) (fuel : Nat), WFHeap h →
      readDoc fuel h a = some (.node fs) →
      WFHeap (keys.foldl (fun hh k => hDelKeyIfPresent hh a k) h) ∧
      (keys.foldl (fun hh k => hDelKeyIfPresent hh a k) h).size = h.size ∧
      (∀ i, i ≠ a → (keys.foldl (fun hh k => hDelKeyIfPresent hh a k) h).cell i = h.cell i) ∧
      readDoc fuel (keys.foldl (fun hh k => hDelKeyIfPresent hh a k) h) a =
        some (.node (keys.foldl Fields.eraseKey fs)) := by
  induction keys with
  | nil => exact fun h a fs fuel hwf hrd => ⟨hwf, rfl, fun _ _ => rfl, hrd⟩
  | cons k rest ih =>
    intro h a fs fuel hwf hrd
    rcases hDel_spec h a k fs fuel hwf hrd with ⟨hwf1, hsz1, hne1, hrd1⟩
    rcases ih (hDelKeyIfPresent h a k) a (fs.eraseKey k) fuel hwf1 hrd1 with
      ⟨hwf2, hsz2, hne2, hrd2⟩
    refine ⟨hwf2, by rw [List.foldl_cons] at *; rw [hsz2, hsz1], ?_, hrd2⟩
    intro i hi
    rw [List.foldl_cons, hne2 i hi, hne1 i hi]

/-- C6 (amended).  The heap form of the ID lookups
(`hGetDoc fuel h store id keys`, instantiated by `get_poi` /
`get_road` with no keys, `get_lane` / `get_junction` with their
bookkeeping keys, and `get_aoi` with `include_unused=True`; `get_aoi`
with the default flag can instead raise, see the C10 theorem and the
C6 counterexample): for a present id whose stored record is a dict,
the lookup returns a freshly allocated root (disjoint from every
engine cell), whose content is the stored tree with the strip keys
removed — structurally equal to the stored record minus the strips,
never the stored cell itself; the engine's cells are untouched, the
stored record rereads unchanged under arbitrary mutation of the fresh
region, and a second lookup yields a structurally equal but distinct
root while the first copy survives unchanged. -/
theorem c6_lookup_returns_fresh_deep_copy (fuel : Nat) (h : Heap)
    (store : List (Int × Nat)) (id : Int) (keys : List String) (a : Nat) (dfs : Fields)
    (hwf : WFHeap h) (hlk : List.lookup id store = some a)
    (hrd : readDoc fuel h a = some (.node dfs)) :
    ∃ h1 a1, hGetDoc fuel h store id keys = some (h1, some a1) ∧
      h.size ≤ a1 ∧
      readDoc fuel h1 a1 = some (stripKeys (.node dfs) keys) ∧
      (∀ i, i < h.size → h1.cell i = h.cell i) ∧
      (∀ h2 : Heap, (∀ i, i < h.size → h2.cell i = h.cell i) →
        readDoc fuel h2 a = some (.node dfs)) ∧
      (∃ h2 a2, hGetDoc fuel h1 store id keys = some (h2, some a2) ∧ a2 ≠ a1 ∧
        readDoc fuel h2 a2 = some (stripKeys (.node dfs) keys) ∧
        readDoc fuel h2 a1 = some (stripKeys (.node dfs) keys)) := by
  have halt : a < h.size := readDoc_lt_size fuel h a _ hrd
  have hheight : (Doc.node dfs).height ≤ fuel := readDoc_height fuel h a _ hrd
  rcases storeDoc_grow (.node dfs) h with ⟨⟨t1, ht1⟩, hge1, hlt1, hwfp1⟩
  have hwf1 : WFHeap (storeDoc h (.node dfs)).1 := hwfp1 hwf
  have hread1 : readDoc fuel (storeDoc h (.node dfs)).1 (storeDoc h (.node dfs)).2 =
      some (.node dfs) := storeDoc_read (.node dfs) h fuel hwf hheight
  rcases stripFold_spec keys (storeDoc h (.node dfs)).1 (storeDoc h (.node dfs)).2 dfs
      fuel hwf1 hread1 with ⟨hwfS, hszS, hneS, hrdS⟩
  have hout : hGetDoc fuel h store id keys =
      some (keys.foldl (fun hh k => hDelKeyIfPresent hh (storeDoc h (.node dfs)).2 k)
              (storeDoc h (.node dfs)).1,
            some (storeDoc h (.node dfs)).2) := by
    unfold hGetDoc
    simp only [hlk, hrd]
  have hbelow : ∀ i, i < h.size →
      (keys.foldl (fun hh k => hDelKeyIfPresent hh (storeDoc h (.node dfs)).2 k)
        (storeDoc h (.node dfs)).1).cell i = h.cell i := by
    intro i hi
    rw [hneS i (by omega), ht1, cell_append_lt h t1 i hi]
  have hpreserve : ∀ h2 : Heap, (∀ i, i < h.size → h2.cell i = h.cell i) →
      readDoc fuel h2 a = some (.node dfs) := by
    intro h2 hag
    rw [readDoc_congr fuel h h2 a h.size hwf halt hag]
    exact hrd
  refine ⟨_, _, hout, hge1, hrdS, hbelow, hpreserve, ?_⟩
  set h1 := keys.foldl (fun hh k => hDelKeyIfPresent hh (storeDoc h (.node dfs)).2 k)
    (storeDoc h (.node dfs)).1 with hh1
  have hsz1 : h1.size = (storeDoc h (.node dfs)).1.size := hszS
  have hrd2 : readDoc fuel h1 a = some (.node dfs) := hpreserve h1 hbelow
  have hheight2 : (Doc.node dfs).height ≤ fuel := hheight
  rcases storeDoc_grow (.node dfs) h1 with ⟨⟨t2, ht2⟩, hge2, hlt2, hwfp2⟩
  have hwf2 : WFHeap (storeDoc h1 (.node dfs)).1 := hwfp2 hwfS
  have hread2 : readDoc fuel (storeDoc h1 (.node dfs)).1 (storeDoc h1 (.node dfs)).2 =
      some (.node dfs) := storeDoc_read (.node dfs) h1 fuel hwfS hheight2
  rcases stripFold_spec keys (storeDoc h1 (.node dfs)).1 (storeDoc h1 (.node dfs)).2 dfs
      fuel hwf2 hread2 with ⟨hwfS2, hszS2, hneS2, hrdS2⟩
  have hout2 : hGetDoc fuel h1 store id keys =
      some (keys.foldl (fun hh k => hDelKeyIfPresent hh (storeDoc h1 (.node dfs)).2 k)
              (storeDoc h1 (.node dfs)).1,
            some (storeDoc h1 (.node dfs)).2) := by
    unfold hGetDoc
    simp only [hlk, hrd2]
  have ha1lt : (storeDoc h (.node dfs)).2 < h1.size := by
    rw [hsz1]
    exact hlt1
  have hne : (storeDoc h1 (.node dfs)).2 ≠ (storeDoc h (.node dfs)).2 := by
    omega
  refine ⟨_, _, hout2, hne, hrdS2, ?_⟩
  have hag2 : ∀ i, i < h1.size →
      (keys.foldl (fun hh k => hDelKeyIfPresent hh (storeDoc h1 (.node dfs)).2 k)
        (storeDoc h1 (.node dfs)).1).cell i = h1.cell i := by
    intro i hi
    rw [hneS2 i (by omega), ht2, cell_append_lt h1 t2 i hi]
  rw [readDoc_congr fuel h1 _ (storeDoc h (.node dfs)).2 h1.size hwfS ha1lt hag2]
  exact hrdS

/-- Soundness of the executable well-formedness check. -/
theorem wfbAux_sound : ∀ (t : List HObj) (n : Nat), wfbAux n t = true →
    ∀ j fs, t[j]? = some (.hnode fs) → ∀ kv ∈ fs, kv.2 < n + j := by
  intro t
  induction t with
  | nil =>
    intro n _ j fs hj
    simp at hj
  | cons o rest ih =>
    intro n hb j fs hj kv hkv
    simp only [wfbAux, Bool.and_eq_true] at hb
    cases j with
    | zero =>
      simp only [List.getElem?_cons_zero] at hj
      cases Option.some.inj hj
      have := hb.1
      simp only [List.all_eq_true] at this
      have := this kv hkv
      simpa using this
    | succ j2 =>
      simp only [List.getElem?_cons_succ] at hj
      have := ih (n + 1) hb.2 j2 fs hj kv hkv
      omega

/-- A heap passing the executable check is well-formed. -/
theorem wfb_implies (h : Heap) (hb : wfb h = true) : WFHeap h := by
  intro a fs hc kv hkv
  have := wfbAux_sound h 0 hb a fs hc kv hkv
  simpa using this

/-- Fields of a sample stored lane record. -/
def laneDocFields : Fields :=
  .fcons "id" (.leaf 100)
    (.fcons "left_border_line" (.node .fnil)
      (.fcons "max_speed" (.leaf 30) .fnil))

/-- The heap holding the sample lane record. -/
def laneHeap : Heap := (storeDoc [] (.node laneDocFields)).1

/-- Address of the sample lane record. -/
def laneAddr : Nat := (storeDoc [] (.node laneDocFields)).2

/-- The engine's lane id-to-address mapping. -/
def laneStore : List (Int × Nat) := [(100, laneAddr)]

/-- The keys `get_lane` strips with the default flag. -/
def laneStripKeys : List String := ["left_border_line", "right_border_line", "overlaps"]

theorem c6_lookup_witness :
  ∃ h1 a1, hGetDoc 4 laneHeap laneStore 100 laneStripKeys = some (h1, some a1) ∧
    laneHeap.size ≤ a1 ∧
    readDoc 4 h1 a1 = some (stripKeys (.node laneDocFields) laneStripKeys) ∧
    (∀ i, i < laneHeap.size → h1.cell i = laneHeap.cell i) ∧
    (∀ h2 : Heap, (∀ i, i < laneHeap.size → h2.cell i = laneHeap.cell i) →
      readDoc 4 h2 laneAddr = some (.node laneDocFields)) ∧
    (∃ h2 a2, hGetDoc 4 h1 laneStore 100 laneStripKeys = some (h2, some a2) ∧ a2 ≠ a1 ∧
      readDoc 4 h2 a2 = some (stripKeys (.node laneDocFields) laneStripKeys) ∧
      readDoc 4 h2 a1 = some (stripKeys (.node laneDocFields) laneStripKeys)) :=
  c6_lookup_returns_fresh_deep_copy 4 laneHeap laneStore 100 laneStripKeys laneAddr
    laneDocFields (wfb_implies laneHeap (by decide))
    (by decide)
    (storeDoc_read (.node laneDocFields) [] 4
      (fun a fs hc kv hkv => absurd hc (by simp [Heap.cell]))
      (by decide))
